import Mathlib

/-!
Shallow embedding of the resource handlers of the terraform-provider-azurerm
excerpt, together with theorems settling the specification claims about them.

The Go handlers are pure control flow over responses of a remote API client:
every call into the generated SDK is modelled by an explicit argument of type
ApiResult carrying the possible outcomes the handler distinguishes (success,
an error whose attached HTTP response was a 404, any other error).  Handler
state (the terraform ResourceData id and fields) is passed and returned
explicitly.  Machine integers are modelled as Int with explicit wrapping where
the Go code converts between widths.  External library functions that the
handlers call (strconv, regexp matching, time arithmetic, strings.EqualFold)
are modelled directly after their documented Go semantics, since the library
sources are not part of this repository.
-/

/-- Outcome of a remote API call as a handler observes it: a payload on
success, an error whose response utils.ResponseWasNotFound recognises as a
404, or any other error.  Modelled from the call sites in the sources; the
generated SDK client is external to the repository. -/
inductive ApiResult (A : Type) where
  | ok (value : A)
  | notFoundErr
  | otherErr
  deriving DecidableEq, Repr

/-- Error value returned by a handler: either the distinct already-exists
error produced by tf.ImportAsExistsError, carrying the offending resource id,
or an ordinary error wrapped with a context message by fmt.Errorf. -/
inductive HandlerError where
  | importAsExists (id : String)
  | wrapped (msg : String)
  deriving DecidableEq, Repr

deriving instance DecidableEq for Except
deriving instance Repr for Except

/-- Truncating division on Int, the semantics of Go integer division. -/
def goDiv (a b : Int) : Int := Int.tdiv a b

/-- Truncating remainder on Int, the semantics of the Go percent operator. -/
def goMod (a b : Int) : Int := Int.tmod a b

/-- Two-complement wrap of an integer into the int32 range, the semantics of
a Go int32 conversion. -/
def wrapInt32 (n : Int) : Int := (n + 2 ^ 31) % 2 ^ 32 - 2 ^ 31

/-- Lower bound of the Go int32 range. -/
def int32Min : Int := -(2 ^ 31)

/-- Upper bound of the Go int32 range. -/
def int32Max : Int := 2 ^ 31 - 1

/-- Lower bound of the Go int64 range. -/
def int64Min : Int := -(2 ^ 63)

/-- Upper bound of the Go int64 range. -/
def int64Max : Int := 2 ^ 63 - 1

/-- ASCII lower-casing of a character.  strings.EqualFold performs Unicode
simple case folding; the handlers compare endpoint names, and the folding is
modelled at the ASCII level, which does not affect any claim below. -/
def asciiLower (c : Char) : Char :=
  if 'A' ≤ c ∧ c ≤ 'Z' then Char.ofNat (c.toNat + 32) else c

/-- Model of strings.EqualFold: equality after case folding. -/
def goEqualFold (a b : String) : Bool :=
  a.data.map asciiLower = b.data.map asciiLower

/-! ## Container registry token data source (container_registry_token_data_source.go) -/

/-- Value of the SDK constant containerregistry.TokenStatusDisabled, from the
generated SDK enumeration of token statuses. -/
def TokenStatusDisabled : String := "disabled"

/-- Remote token object as the data source consumes it: the fields of the SDK
Token the handler reads, with pointer fields as Option and the status
enumeration as its underlying string. -/
structure ContainerRegistryToken where
  id : Option String
  name : Option String
  scopeMapId : Option String
  status : String
  deriving DecidableEq, Repr

/-- Fields the container registry token data source writes back into state. -/
structure TokenDataSourceState where
  id : String
  name : Option String
  resourceGroupName : String
  containerRegistryName : String
  scopeMapId : Option String
  enabled : Bool
  deriving DecidableEq, Repr

/-- Embedding of dataSourceContainerRegistryTokenRead: the Get call is the
explicit getResp argument; on success the handler requires a non-empty id,
then sets enabled to false exactly when the token status equals the disabled
constant. -/
def dataSourceContainerRegistryTokenRead (resourceGroup containerRegistryName name : String)
    (getResp : ApiResult ContainerRegistryToken) : Except HandlerError TokenDataSourceState :=
  match getResp with
  | .notFoundErr =>
      .error (.wrapped "Container Registry token was not found in Resource Group")
  | .otherErr =>
      .error (.wrapped "Error making Read request on token")
  | .ok resp =>
      if resp.id = none ∨ resp.id = some "" then
        .error (.wrapped "retrieving Container Registry Token: id was nil")
      else
        let status := if resp.status = TokenStatusDisabled then false else true
        .ok { id := resp.id.getD ""
              name := resp.name
              resourceGroupName := resourceGroup
              containerRegistryName := containerRegistryName
              scopeMapId := resp.scopeMapId
              enabled := status }

/-! ## SQL failover group read-write endpoint policy (unnamed/part_000) -/

/-- Value of the SDK constant sql.Automatic. -/
def sqlAutomatic : String := "Automatic"

/-- Value of the SDK constant sql.Manual. -/
def sqlManual : String := "Manual"

/-- One block of the read_write_endpoint_failover_policy configuration list:
a mode string and the grace_minutes integer of the schema. -/
structure ReadWritePolicyBlock where
  mode : String
  graceMinutes : Int
  deriving DecidableEq, Repr

/-- SDK object sql.FailoverGroupReadWriteEndpoint: the failover policy
enumeration as a string and the optional grace period pointer. -/
structure FailoverGroupReadWriteEndpoint where
  failoverPolicy : String
  failoverWithDataLossGracePeriodMinutes : Option Int
  deriving DecidableEq, Repr

/-- Flattened form of one policy block as built by the flatten function: the
mode key is always present, the grace_minutes key only when the grace period
pointer is set. -/
structure FlatReadWritePolicy where
  mode : String
  graceMinutes : Option Int
  deriving DecidableEq, Repr

/-- Embedding of expandSqlFailoverGroupReadWritePolicy, applied to the single
configuration block the Go code reads out of the list: the grace period is
converted to int32 and attached only when the mode is not Manual. -/
def expandSqlFailoverGroupReadWritePolicy (v : ReadWritePolicyBlock) :
    FailoverGroupReadWriteEndpoint :=
  let mode := v.mode
  let graceMins := wrapInt32 v.graceMinutes
  { failoverPolicy := mode
    failoverWithDataLossGracePeriodMinutes :=
      if mode ≠ sqlManual then some graceMins else none }

/-- Embedding of flattenSqlFailoverGroupReadWritePolicy: nil input flattens to
the empty list, otherwise to a one-element list whose block carries the mode
and, when the pointer is set, the grace period. -/
def flattenSqlFailoverGroupReadWritePolicy :
    Option FailoverGroupReadWriteEndpoint → List FlatReadWritePolicy
  | none => []
  | some input =>
      [{ mode := input.failoverPolicy
         graceMinutes := input.failoverWithDataLossGracePeriodMinutes }]

/-! ## IoT Hub ServiceBus queue endpoint resource (iothub_endpoint_servicebus_queue_resource.go) -/

/-- SDK object devices.RoutingServiceBusQueueEndpointProperties with its four
pointer fields the handler touches. -/
structure RoutingServiceBusQueueEndpointProperties where
  connectionString : Option String
  name : Option String
  subscriptionID : Option String
  resourceGroup : Option String
  deriving DecidableEq, Repr

/-- Loop body of resourceIotHubEndpointServiceBusQueueDelete building the
updated endpoint list: an endpoint is appended to the accumulator exactly when
its name pointer is set and does not case-insensitively equal the endpoint
name being deleted. -/
def iotHubDeleteUpdatedEndpoints
    (endpoints : List RoutingServiceBusQueueEndpointProperties)
    (endpointName : String) : List RoutingServiceBusQueueEndpointProperties :=
  endpoints.foldl
    (fun acc endpoint =>
      match endpoint.name with
      | some existingEndpointName =>
          if ¬ goEqualFold existingEndpointName endpointName then acc ++ [endpoint] else acc
      | none => acc)
    []

/-! ## Go standard library fragments used by the automation variable code

The automation variable handlers call strconv (Quote, Unquote, ParseInt,
ParseBool, Itoa, FormatBool) and match a regular expression against the raw
value.  These library functions are external to the repository and are
modelled here after their documented Go semantics.  Strings are modelled as
their lists of characters; escape sequences that Go decodes to raw bytes or
to the Unicode replacement character are modelled as the corresponding code
points, which is immaterial to every claim below. -/

/-- Decimal digit character for a value below ten. -/
def natDigitChar (d : Nat) : Char := Char.ofNat (48 + d)

/-- Test for an ASCII decimal digit. -/
def isDigitChar (c : Char) : Bool := '0' ≤ c ∧ c ≤ '9'

/-- Fuel-driven core of decimal printing: most significant digits first, as
strconv formats integers.  The fuel is always at least the digit count at the
call sites. -/
def natToDigitsCore : Nat → Nat → List Char
  | 0, _ => []
  | fuel + 1, n =>
      if n < 10 then [natDigitChar n]
      else natToDigitsCore fuel (n / 10) ++ [natDigitChar (n % 10)]

/-- Decimal digit list of a natural number. -/
def natToDigits (n : Nat) : List Char := natToDigitsCore (n + 1) n

/-- Model of strconv.Itoa and of the percent-d formatting verb on a Go
integer: a minus sign for negative values followed by the decimal digits. -/
def goItoa (n : Int) : String :=
  if n < 0 then String.mk ('-' :: natToDigits n.natAbs) else String.mk (natToDigits n.natAbs)

/-- Model of strconv.FormatBool. -/
def goFormatBool (b : Bool) : String := if b then "true" else "false"

/-- Value of a non-empty all-digit character list, read most significant
digit first; none on the empty list or on any non-digit character. -/
def goParseDigits (l : List Char) : Option Nat :=
  if l.isEmpty then none
  else if l.all isDigitChar then some (l.foldl (fun a c => 10 * a + (c.toNat - 48)) 0)
  else none

/-- Digit-and-range part of the ParseInt model: the digits are parsed, the
sign applied, and a value outside the two-complement range of the bit size
rejected. -/
def goParseIntCore (bitSize : Nat) (neg : Bool) (digits : List Char) : Option Int :=
  match goParseDigits digits with
  | none => none
  | some m =>
      let v : Int := if neg then -(m : Int) else (m : Int)
      if v < -(2 ^ (bitSize - 1)) ∨ v > 2 ^ (bitSize - 1) - 1 then none else some v

/-- Model of strconv.ParseInt with base 10 and the given bit size: an
optional single sign followed by decimal digits, rejected when the value
falls outside the two-complement range of the bit size. -/
def goParseInt (bitSize : Nat) (s : String) : Option Int :=
  match s.data with
  | [] => none
  | c :: rest =>
      if c = '+' then goParseIntCore bitSize false rest
      else if c = '-' then goParseIntCore bitSize true rest
      else goParseIntCore bitSize false (c :: rest)

/-- Model of strconv.ParseBool: the twelve accepted literals. -/
def goParseBool (s : String) : Option Bool :=
  if s = "1" ∨ s = "t" ∨ s = "T" ∨ s = "TRUE" ∨ s = "true" ∨ s = "True" then some true
  else if s = "0" ∨ s = "f" ∨ s = "F" ∨ s = "FALSE" ∨ s = "false" ∨ s = "False" then some false
  else none

/-- Lower-case hexadecimal digit character, as strconv emits. -/
def hexDigitChar (n : Nat) : Char :=
  if n < 10 then Char.ofNat (48 + n) else Char.ofNat (87 + n)

/-- Hexadecimal digit value of a character. -/
def hexVal (c : Char) : Option Nat :=
  if '0' ≤ c ∧ c ≤ '9' then some (c.toNat - 48)
  else if 'a' ≤ c ∧ c ≤ 'f' then some (c.toNat - 87)
  else if 'A' ≤ c ∧ c ≤ 'F' then some (c.toNat - 55)
  else none

/-- Octal digit value of a character. -/
def octVal (c : Char) : Option Nat :=
  if '0' ≤ c ∧ c ≤ '7' then some (c.toNat - 48) else none

/-- Code point for a backslash-u or backslash-U escape: values above the
maximal rune are rejected as in Go, surrogate values are replaced by the
Unicode replacement character exactly as the Go UTF-8 encoder does. -/
def runeOfEscape (v : Nat) : Option Char :=
  if v > 1114111 then none
  else if 55296 ≤ v ∧ v ≤ 57343 then some (Char.ofNat 65533)
  else some (Char.ofNat v)

/-- Escaping of one character by strconv.Quote: the quote and the backslash
get a backslash escape, the named control characters their letter escapes,
remaining control characters and delete a backslash-x escape, and every
other character is kept literal.  Go escapes non-printable runes above
delete with backslash-u forms, which Unquote decodes to the same rune, so
keeping them literal leaves the modelled composition identical to Go. -/
def goQuoteEscapeChar (c : Char) : List Char :=
  if c = '"' ∨ c = '\\' then ['\\', c]
  else if c = Char.ofNat 7 then ['\\', 'a']
  else if c = Char.ofNat 8 then ['\\', 'b']
  else if c = Char.ofNat 12 then ['\\', 'f']
  else if c = Char.ofNat 10 then ['\\', 'n']
  else if c = Char.ofNat 13 then ['\\', 'r']
  else if c = Char.ofNat 9 then ['\\', 't']
  else if c = Char.ofNat 11 then ['\\', 'v']
  else if c.toNat < 32 ∨ c.toNat = 127 then
    ['\\', 'x', hexDigitChar (c.toNat / 16), hexDigitChar (c.toNat % 16)]
  else [c]

/-- Model of strconv.Quote: a double quote, each character escaped, a double
quote. -/
def goQuote (s : String) : String :=
  String.mk ('"' :: (s.data.map goQuoteEscapeChar).flatten ++ ['"'])

/-- Reading of a fixed number of hexadecimal digits with an accumulator, as
the backslash-x, backslash-u and backslash-U cases of strconv.UnquoteChar
do: fails on a missing or invalid digit, otherwise returns the value and
the remaining input. -/
def readHexDigits : Nat → Nat → List Char → Option (Nat × List Char)
  | 0, acc, t => some (acc, t)
  | _ + 1, _, [] => none
  | k + 1, acc, c :: rest =>
      match hexVal c with
      | some d => readHexDigits k (16 * acc + d) rest
      | none => none

/-- Reading of a fixed number of octal digits with an accumulator, as the
octal case of strconv.UnquoteChar does. -/
def readOctDigits : Nat → Nat → List Char → Option (Nat × List Char)
  | 0, acc, t => some (acc, t)
  | _ + 1, _, [] => none
  | k + 1, acc, c :: rest =>
      match octVal c with
      | some d => readOctDigits k (8 * acc + d) rest
      | none => none

/-- Decoding of one escape sequence following a backslash, parameterised by
the quote character, per strconv.UnquoteChar: the letter escapes, a
two-digit hexadecimal byte, four or eight hexadecimal digits for a rune, a
backslash, the quote escapes legal only inside their own quote kind, and a
three-digit octal byte not exceeding 255.  Returns the decoded character
and the remaining input. -/
def unquoteEscape (q e : Char) (t : List Char) : Option (Char × List Char) :=
  if e = 'a' then some (Char.ofNat 7, t)
  else if e = 'b' then some (Char.ofNat 8, t)
  else if e = 'f' then some (Char.ofNat 12, t)
  else if e = 'n' then some (Char.ofNat 10, t)
  else if e = 'r' then some (Char.ofNat 13, t)
  else if e = 't' then some (Char.ofNat 9, t)
  else if e = 'v' then some (Char.ofNat 11, t)
  else if e = 'x' then
    match readHexDigits 2 0 t with
    | some (v, t2) => some (Char.ofNat v, t2)
    | none => none
  else if e = 'u' then
    match readHexDigits 4 0 t with
    | some (v, t2) =>
        match runeOfEscape v with
        | some r => some (r, t2)
        | none => none
    | none => none
  else if e = 'U' then
    match readHexDigits 8 0 t with
    | some (v, t2) =>
        match runeOfEscape v with
        | some r => some (r, t2)
        | none => none
    | none => none
  else if e = '\\' then some ('\\', t)
  else if e = '\x27' then (if q = '\x27' then some ('\x27', t) else none)
  else if e = '"' then (if q = '"' then some ('"', t) else none)
  else
    match octVal e with
    | some v1 =>
        match readOctDigits 2 v1 t with
        | some (v, t2) => if v > 255 then none else some (Char.ofNat v, t2)
        | none => none
    | none => none

/-- Fuel-driven decoding loop of strconv.Unquote over the characters
between the outer quotes, parameterised by the quote character: a bare
quote character ends in error, a backslash starts one of the Go escape
forms, anything else is taken literally.  Mirrors the repeated
strconv.UnquoteChar calls; every step consumes at least one character, so
fuel equal to the input length never runs out. -/
def goUnquoteLoopF (q : Char) : Nat → List Char → Option (List Char)
  | _, [] => some []
  | 0, _ :: _ => none
  | fuel + 1, c :: rest =>
      if c = q then none
      else if c = '\\' then
        match rest with
        | [] => none
        | e :: t =>
            match unquoteEscape q e t with
            | none => none
            | some (d, t2) => (goUnquoteLoopF q fuel t2).map (d :: ·)
      else (goUnquoteLoopF q fuel rest).map (c :: ·)

/-- Decoding loop of strconv.Unquote, run with fuel equal to the input
length. -/
def goUnquoteLoop (q : Char) (l : List Char) : Option (List Char) :=
  goUnquoteLoopF q l.length l

/-- Model of strconv.Unquote: the string must begin and end with the same
quote character.  A backquoted string may not contain a backquote and has
carriage returns stripped; a double-quoted string may not contain a raw
newline and is decoded by the loop; a single-quoted literal must decode to
exactly one character. -/
def goUnquote (s : String) : Option String :=
  match s.data with
  | [] => none
  | [_] => none
  | q :: rest =>
      if (q :: rest).getLast? ≠ some q then none
      else
        let inner := rest.dropLast
        if q = '`' then
          if inner.contains '`' then none
          else some (String.mk (inner.filter (fun c => c ≠ '\r')))
        else if q = '"' then
          if inner.contains '\n' then none
          else (goUnquoteLoop '"' inner).map String.mk
        else if q = '\'' then
          if inner.contains '\n' then none
          else
            match goUnquoteLoop '\'' inner with
            | some [c] => some (String.mk [c])
            | _ => none
        else none

/-- Characters opening the date literal recognised by the regular expression
in ParseAzureAutomationVariableValue: a double quote, a backslash, a slash,
the word Date, an opening parenthesis. -/
def datePrefix : List Char := ['"', '\\', '/', 'D', 'a', 't', 'e', '(']

/-- Characters closing the date literal: a closing parenthesis, a backslash,
a slash, a double quote. -/
def dateSuffix : List Char := [')', '\\', '/', '"']

/-- Test that a character list is an optional minus sign followed by at
least one decimal digit, the capture group of the date pattern. -/
def ticksStringSpec (t : List Char) : Bool :=
  match t with
  | [] => false
  | c :: rest =>
      if c = '-' then !rest.isEmpty && rest.all isDigitChar
      else (c :: rest).all isDigitChar

/-- Full-string match of the date pattern of ParseAzureAutomationVariableValue
against the input, returning the capture group: the Go code additionally
requires the leftmost match to equal the whole input, which for this pattern
holds exactly for strings of the decomposed shape. -/
def goDateSubmatch (s : String) : Option (List Char) :=
  let l := s.data
  if l.take 8 = datePrefix then
    let mid := l.drop 8
    if mid.length < 4 then none
    else
      let t := mid.take (mid.length - 4)
      if mid.drop (mid.length - 4) = dateSuffix ∧ ticksStringSpec t then some t else none
  else none

/-! ## ParseAzureAutomationVariableValue and the Create value encoding (automation_variable.go) -/

/-- Value carried by an automation variable after parsing: a time instant as
nanoseconds since the Unix epoch in UTC, a string, an int32 integer, or a
boolean. -/
inductive AutomationValue where
  | timeValue (unixNanos : Int)
  | strValue (s : String)
  | intValue (n : Int)
  | boolValue (b : Bool)
  deriving DecidableEq, Repr

/-- Chain of ParseAzureAutomationVariableValue on a non-nil input, computing
the pair of the parsed value and the actual resource string: the date
pattern with an int64 tick parse, then Unquote, then ParseInt at 32 bits,
then ParseBool, otherwise the Unknown marker with the zero boolean that the
failed ParseBool call leaves behind in Go. -/
def automationVariableClassify (inputVal : String) : Option AutomationValue × String :=
  match goDateSubmatch inputVal with
  | some ticksChars =>
      match goParseInt 64 (String.mk ticksChars) with
      | some ticks =>
          (some (.timeValue (goDiv ticks 1000 * 1000000000 + goMod ticks 1000 * 1000000)),
           "azurerm_automation_variable_datetime")
      | none => (none, "Unknown")
  | none =>
      match goUnquote inputVal with
      | some sv => (some (.strValue sv), "azurerm_automation_variable_string")
      | none =>
          match goParseInt 32 inputVal with
          | some iv => (some (.intValue iv), "azurerm_automation_variable_int")
          | none =>
              match goParseBool inputVal with
              | some bv => (some (.boolValue bv), "azurerm_automation_variable_bool")
              | none => (some (.boolValue false), "Unknown")

/-- Actual resource string inferred from a non-nil input, the second
component of the classification chain. -/
def automationVariableActualResource (inputVal : String) : String :=
  (automationVariableClassify inputVal).2

/-- Embedding of ParseAzureAutomationVariableValue: a nil input is legal only
for the null variable resource; a non-nil input is classified by the chain
and accepted exactly when the inferred resource string equals the expected
one. -/
def ParseAzureAutomationVariableValue (resource : String) (input : Option String) :
    Except String (Option AutomationValue) :=
  match input with
  | none =>
      if resource ≠ "azurerm_automation_variable_null" then
        .error "Expected value nil to be the given resource, actual type is azurerm_automation_variable_null"
      else .ok none
  | some inputVal =>
      let step := automationVariableClassify inputVal
      if step.2 ≠ resource then
        .error "Expected value to be the given resource, actual type differs"
      else .ok step.1

/-- Boolean error test on an Except value. -/
def exceptIsError {E A : Type} : Except E A → Bool
  | .error _ => true
  | .ok _ => false

/-- Variable type selected by the concrete automation variable resources,
the lower-cased varType of resourceAutomationVariableCreateUpdate. -/
inductive AutomationVarType where
  | datetime
  | bool
  | int
  | str
  | null
  deriving DecidableEq, Repr

/-- Configuration value accepted by the Create operation for a given
variable type: an accepted datetime configuration is represented by the
instant its RFC3339 string parses to, as nanoseconds since the Unix epoch. -/
inductive AutomationConfigValue where
  | dtValue (unixNanos : Int)
  | boolCfg (b : Bool)
  | intCfg (n : Int)
  | strCfg (s : String)
  deriving DecidableEq, Repr

/-- Value-encoding switch of resourceAutomationVariableCreateUpdate: the
datetime instant is printed as the date literal of its millisecond count,
booleans by FormatBool, integers by Itoa, strings by Quote. -/
def resourceAutomationVariableCreateValue : AutomationConfigValue → String
  | .dtValue ns =>
      String.mk (datePrefix ++ (goItoa (goDiv ns 1000000)).data ++ dateSuffix)
  | .boolCfg b => goFormatBool b
  | .intCfg n => goItoa n
  | .strCfg s => goQuote s

/-! ## Execution outcomes, named locks and event traces

Handlers that mutate a shared parent acquire a named lock through the
internal locks utility (locks.ByName, deferred locks.UnlockByName) before a
read-modify-write of the parent.  The utility itself is outside the provided
sources; per the specification it is a mutual-exclusion lock keyed by a name
and a resource-type tag.  A handler run therefore also produces a trace of
lock and parent-access events, and the deferred unlock is modelled by
appending the release after the body trace on every completion path, which
is the Go defer semantics. -/

/-- Result of executing a handler body: a normal return or a nil-pointer
dereference aborting the run. -/
inductive GoExec (A : Type) where
  | ret (a : A)
  | nilPanic
  deriving DecidableEq, Repr

/-- Events of a handler run: acquiring and releasing a named lock, reading
the parent object from the API, writing the parent object back. -/
inductive LockEvent where
  | lockAcq (name tag : String)
  | lockRel (name tag : String)
  | parentRead
  | parentWrite
  deriving DecidableEq, Repr

/-- Wrapping of a handler body in locks.ByName and a deferred
locks.UnlockByName: the acquisition precedes the body trace and the release
follows it on every completion path. -/
def withNamedLock {A : Type} (n t : String) (body : A × List LockEvent) : A × List LockEvent :=
  (body.1, .lockAcq n t :: body.2 ++ [.lockRel n t])

/-- Contribution of an event to the held count of the lock keyed by the
given name and tag. -/
def lockDelta (n t : String) (e : LockEvent) : Int :=
  match e with
  | .lockAcq n2 t2 => if n2 = n ∧ t2 = t then 1 else 0
  | .lockRel n2 t2 => if n2 = n ∧ t2 = t then -1 else 0
  | .parentRead => 0
  | .parentWrite => 0

/-- Number of outstanding acquisitions of the lock at the end of a trace. -/
def heldCount (n t : String) (evs : List LockEvent) : Int :=
  (evs.map (lockDelta n t)).sum

/-- Step of the lock-monitoring fold: a parent access records whether the
lock is currently held, a lock event updates the held count. -/
def lockStep (n t : String) (acc : Int × Bool) (e : LockEvent) : Int × Bool :=
  match e with
  | .parentRead => (acc.1, acc.2 && decide (0 < acc.1))
  | .parentWrite => (acc.1, acc.2 && decide (0 < acc.1))
  | _ => (acc.1 + lockDelta n t e, acc.2)

/-- Test that every parent read and parent write in the trace happens while
the lock keyed by the given name and tag is held. -/
def parentAccessesLocked (n t : String) (evs : List LockEvent) : Bool :=
  (evs.foldl (lockStep n t) (0, true)).2

/-- Test that the trace releases the lock as often as it acquires it. -/
def lockReleasedAtEnd (n t : String) (evs : List LockEvent) : Bool :=
  heldCount n t evs = 0

/-- Modelled from the spec: value of the lock tag constant
IothubResourceName, declared in the iothub package outside the provided
sources; the specification requires only a tag identifying the resource
type. -/
def IothubResourceName : String := "azurerm_iothub"

/-- Modelled from the spec: value of the lock tag constant
networkInterfaceResourceName of the network package, outside the provided
sources. -/
def networkInterfaceResourceName : String := "azurerm_network_interface"

/-- Modelled from the spec: value of the lock tag constant
networkSecurityGroupResourceName of the network package, outside the
provided sources. -/
def networkSecurityGroupResourceName : String := "azurerm_network_security_group"

/-! ## IoT Hub endpoint handlers -/

/-- SDK object devices.RoutingEndpoints, reduced to the two endpoint list
pointers the handler inspects; the event hub entries themselves are never
read, only the nil-ness of the list pointer. -/
structure RoutingEndpoints where
  serviceBusQueues : Option (List RoutingServiceBusQueueEndpointProperties)
  eventHubs : Option (List Unit)
  deriving DecidableEq, Repr

/-- SDK object devices.RoutingProperties, reduced to the endpoints field. -/
structure RoutingProperties where
  endpoints : Option RoutingEndpoints
  deriving DecidableEq, Repr

/-- SDK object devices.IotHubProperties, reduced to the routing field. -/
structure IotHubProperties where
  routing : Option RoutingProperties
  deriving DecidableEq, Repr

/-- IoT Hub object returned by the resource client: the handler dereferences
the ID pointer unconditionally on the path that uses it, so the id is
modelled as the string; the properties pointer is kept optional because the
delete handler tests it for nil. -/
structure IotHub where
  id : String
  properties : Option IotHubProperties
  deriving DecidableEq, Repr

/-- Configuration fields of the endpoint resource, plus the subscription id
of the client account and the IsNewResource flag of the plugin SDK. -/
structure IotHubEndpointConfig where
  name : String
  resourceGroupName : String
  iothubName : String
  connectionString : String
  subscriptionID : String
  isNewResource : Bool
  deriving DecidableEq, Repr

/-- Last connection string written by the read loop of the endpoint read
handler, which overwrites the field once per name match. -/
def iotHubEndpointReadConnection
    (endpoints : List RoutingServiceBusQueueEndpointProperties)
    (endpointName : String) : Option String :=
  endpoints.foldl
    (fun acc endpoint =>
      match endpoint.name with
      | some n => if goEqualFold n endpointName then endpoint.connectionString else acc
      | none => acc)
    none

/-- Outcome of the endpoint read handler: its result, the SetId calls it
performed in order (the read performs none), and the connection string it
wrote, when any. -/
structure IotHubEndpointReadOutcome where
  result : Except HandlerError Unit
  idsSet : List String
  connectionString : Option String
  deriving DecidableEq, Repr

/-- Embedding of resourceIotHubEndpointServiceBusQueueRead: the id parse and
the hub Get are environment inputs; any Get error, a not-found response
included, is wrapped and surfaced, and the handler never touches the id. -/
def resourceIotHubEndpointServiceBusQueueRead
    (parsedId : Option (String × String × String))
    (getHub : ApiResult IotHub) : IotHubEndpointReadOutcome × List LockEvent :=
  match parsedId with
  | none =>
      ({ result := .error (.wrapped "parsing the endpoint resource id")
         idsSet := [], connectionString := none }, [])
  | some (_resourceGroup, _iothubName, endpointName) =>
      match getHub with
      | .notFoundErr =>
          ({ result := .error (.wrapped "Error loading IotHub")
             idsSet := [], connectionString := none }, [.parentRead])
      | .otherErr =>
          ({ result := .error (.wrapped "Error loading IotHub")
             idsSet := [], connectionString := none }, [.parentRead])
      | .ok iothub =>
          match iothub.properties with
          | none => ({ result := .ok (), idsSet := [], connectionString := none }, [.parentRead])
          | some props =>
              match props.routing with
              | none => ({ result := .ok (), idsSet := [], connectionString := none }, [.parentRead])
              | some routing =>
                  match routing.endpoints with
                  | none => ({ result := .ok (), idsSet := [], connectionString := none }, [.parentRead])
                  | some eps =>
                      match eps.serviceBusQueues with
                      | none =>
                          ({ result := .ok (), idsSet := [], connectionString := none }, [.parentRead])
                      | some endpoints =>
                          ({ result := .ok (), idsSet := []
                             connectionString := iotHubEndpointReadConnection endpoints endpointName },
                           [.parentRead])

/-- Endpoint-list rebuilding loop of the endpoint Create/Update: entries with
a nil name are skipped; a case-insensitive name match on a new resource
aborts with the already-exists error (the none result), on an update it is
replaced by the new endpoint and flagged; other entries are kept in order. -/
def iotHubCreateUpdateLoop (isNew : Bool)
    (queueEndpoint : RoutingServiceBusQueueEndpointProperties) (endpointName : String) :
    List RoutingServiceBusQueueEndpointProperties →
      Option (List RoutingServiceBusQueueEndpointProperties × Bool)
  | [] => some ([], false)
  | e :: rest =>
      match e.name with
      | none => iotHubCreateUpdateLoop isNew queueEndpoint endpointName rest
      | some existingName =>
          if goEqualFold existingName endpointName then
            if isNew then none
            else
              (iotHubCreateUpdateLoop isNew queueEndpoint endpointName rest).map
                (fun p => (queueEndpoint :: p.1, true))
          else
            (iotHubCreateUpdateLoop isNew queueEndpoint endpointName rest).map
              (fun p => (e :: p.1, p.2))

/-- Remote responses consumed by the endpoint Create/Update, including the
responses of the tail call into the read handler. -/
structure IotHubEndpointCreateUpdateEnv where
  getHub : ApiResult IotHub
  createOrUpdate : ApiResult Unit
  waitForCompletion : ApiResult Unit
  readParsedId : Option (String × String × String)
  readGetHub : ApiResult IotHub
  deriving DecidableEq, Repr

/-- Outcome of the endpoint Create/Update: the execution result (a nil
dereference is possible), and the SetId calls performed in order. -/
structure IotHubEndpointCreateUpdateOutcome where
  result : GoExec (Except HandlerError Unit)
  idsSet : List String
  deriving DecidableEq, Repr

/-- Body of resourceIotHubEndpointServiceBusQueueCreateUpdate, the part
running under the named lock: the routing, endpoints and event-hub nil
guards mirror the source, so the service-bus queue list pointer is
dereferenced as the source does, which aborts the run when it is nil; on
success the id is set to the hub id followed by the Endpoints segment and
the endpoint name, and the read handler is tail-called inside the critical
section. -/
def iotHubEndpointCreateUpdateBody
    (cfg : IotHubEndpointConfig) (env : IotHubEndpointCreateUpdateEnv) :
    IotHubEndpointCreateUpdateOutcome × List LockEvent :=
  (match env.getHub with
    | .notFoundErr =>
        ({ result := .ret (.error (.wrapped "IotHub was not found")), idsSet := [] }, [.parentRead])
    | .otherErr =>
        ({ result := .ret (.error (.wrapped "Error loading IotHub")), idsSet := [] }, [.parentRead])
    | .ok iothub =>
        let resourceId := iothub.id ++ "/Endpoints/" ++ cfg.name
        let queueEndpoint : RoutingServiceBusQueueEndpointProperties :=
          { connectionString := some cfg.connectionString
            name := some cfg.name
            subscriptionID := some cfg.subscriptionID
            resourceGroup := some cfg.resourceGroupName }
        match iothub.properties with
        | none => ({ result := .nilPanic, idsSet := [] }, [.parentRead])
        | some props =>
            let routing := match props.routing with
              | none => ({ endpoints := none } : RoutingProperties)
              | some r => r
            let endpoints0 := match routing.endpoints with
              | none => ({ serviceBusQueues := none, eventHubs := none } : RoutingEndpoints)
              | some e => e
            let endpoints1 :=
              if endpoints0.eventHubs = none then
                { endpoints0 with serviceBusQueues := some [] }
              else endpoints0
            match endpoints1.serviceBusQueues with
            | none => ({ result := .nilPanic, idsSet := [] }, [.parentRead])
            | some existing =>
                match iotHubCreateUpdateLoop cfg.isNewResource queueEndpoint cfg.name existing with
                | none =>
                    ({ result := .ret (.error (.importAsExists resourceId)), idsSet := [] },
                     [.parentRead])
                | some (eps, alreadyExists) =>
                    if cfg.isNewResource ∨ alreadyExists then
                      match env.createOrUpdate with
                      | .ok _ =>
                          match env.waitForCompletion with
                          | .ok _ =>
                              let r := resourceIotHubEndpointServiceBusQueueRead
                                env.readParsedId env.readGetHub
                              ({ result := .ret r.1.result
                                 idsSet := resourceId :: r.1.idsSet },
                               [.parentRead, .parentWrite] ++ r.2)
                          | _ =>
                              ({ result := .ret (.error (.wrapped
                                   "Error waiting for the creating or updating of IotHub"))
                                 idsSet := [] }, [.parentRead, .parentWrite])
                      | _ =>
                          ({ result := .ret (.error (.wrapped "Error creating or updating IotHub"))
                             idsSet := [] }, [.parentRead, .parentWrite])
                    else
                      ({ result := .ret (.error (.wrapped
                           "Unable to find ServiceBus Queue Endpoint defined for IotHub"))
                         idsSet := [] }, [.parentRead]))

/-- Embedding of resourceIotHubEndpointServiceBusQueueCreateUpdate as the
body wrapped in the named lock of the hub, taken before the hub is fetched
and released by defer on every completion path. -/
def resourceIotHubEndpointServiceBusQueueCreateUpdate
    (cfg : IotHubEndpointConfig) (env : IotHubEndpointCreateUpdateEnv) :
    IotHubEndpointCreateUpdateOutcome × List LockEvent :=
  withNamedLock cfg.iothubName IothubResourceName (iotHubEndpointCreateUpdateBody cfg env)

/-- Remote responses consumed by the endpoint Delete. -/
structure IotHubEndpointDeleteEnv where
  parsedId : Option (String × String × String)
  getHub : ApiResult IotHub
  createOrUpdate : ApiResult Unit
  waitForCompletion : ApiResult Unit
  deriving DecidableEq, Repr

/-- Outcome of the endpoint Delete: the result and, when the handler wrote
the parent back, the queue list it wrote. -/
structure IotHubEndpointDeleteOutcome where
  result : GoExec (Except HandlerError Unit)
  writtenQueues : Option (List RoutingServiceBusQueueEndpointProperties)
  deriving DecidableEq, Repr

/-- Body of resourceIotHubEndpointServiceBusQueueDelete, the part running
under the named lock: a not-found hub is an error; missing properties,
routing, endpoints or queue list return silently; otherwise the filtered
queue list is written back. -/
def iotHubEndpointDeleteBody (endpointName : String) (getHub : ApiResult IotHub)
    (createOrUpdate waitForCompletion : ApiResult Unit) :
    IotHubEndpointDeleteOutcome × List LockEvent :=
  (match getHub with
        | .notFoundErr =>
            ({ result := .ret (.error (.wrapped "IotHub was not found")), writtenQueues := none },
             [.parentRead])
        | .otherErr =>
            ({ result := .ret (.error (.wrapped "Error loading IotHub")), writtenQueues := none },
             [.parentRead])
        | .ok iothub =>
            match iothub.properties with
            | none => ({ result := .ret (.ok ()), writtenQueues := none }, [.parentRead])
            | some props =>
                match props.routing with
                | none => ({ result := .ret (.ok ()), writtenQueues := none }, [.parentRead])
                | some routing =>
                    match routing.endpoints with
                    | none => ({ result := .ret (.ok ()), writtenQueues := none }, [.parentRead])
                    | some eps =>
                        match eps.serviceBusQueues with
                        | none =>
                            ({ result := .ret (.ok ()), writtenQueues := none }, [.parentRead])
                        | some endpoints =>
                            let updated := iotHubDeleteUpdatedEndpoints endpoints endpointName
                            match createOrUpdate with
                            | .ok _ =>
                                match waitForCompletion with
                                | .ok _ =>
                                    ({ result := .ret (.ok ()), writtenQueues := some updated },
                                     [.parentRead, .parentWrite])
                                | _ =>
                                    ({ result := .ret (.error (.wrapped
                                         "Error waiting for IotHub to finish updating"))
                                       writtenQueues := some updated },
                                     [.parentRead, .parentWrite])
                            | _ =>
                                ({ result := .ret (.error (.wrapped "Error updating IotHub"))
                                   writtenQueues := some updated },
                                 [.parentRead, .parentWrite]))

/-- Embedding of resourceIotHubEndpointServiceBusQueueDelete: the id parse
precedes the lock, so a parse failure produces no events; otherwise the
body runs under the named lock of the hub, released by defer on every
completion path. -/
def resourceIotHubEndpointServiceBusQueueDelete (env : IotHubEndpointDeleteEnv) :
    IotHubEndpointDeleteOutcome × List LockEvent :=
  match env.parsedId with
  | none =>
      ({ result := .ret (.error (.wrapped "parsing the endpoint resource id"))
         writtenQueues := none }, [])
  | some (_resourceGroup, iothubName, endpointName) =>
      withNamedLock iothubName IothubResourceName
        (iotHubEndpointDeleteBody endpointName env.getHub env.createOrUpdate
          env.waitForCompletion)

/-! ## Network interface and security group association handlers -/

/-- Model of strings.Split with a one-character separator, as the
association handlers use on the id: splitting an empty string yields one
empty part, and every separator occurrence starts a new part. -/
def splitOnChar (sep : Char) : List Char → List (List Char)
  | [] => [[]]
  | c :: rest =>
      let r := splitOnChar sep rest
      if c = sep then [] :: r
      else
        match r with
        | [] => [[c]]
        | h :: t => (c :: h) :: t

/-- Network interface properties as the association handlers consume them:
the security group pointer, itself carrying an optional id pointer. -/
structure NetworkInterfacePropertiesFormat where
  networkSecurityGroup : Option (Option String)
  deriving DecidableEq, Repr

/-- Network interface object returned by the interfaces client. -/
structure NetworkInterface where
  id : Option String
  interfacePropertiesFormat : Option NetworkInterfacePropertiesFormat
  deriving DecidableEq, Repr

/-- Configuration fields of the association resource. -/
structure NicSGAssociationConfig where
  networkInterfaceId : String
  networkSecurityGroupId : String
  deriving DecidableEq, Repr

/-- Outcome of an association handler: the result and the SetId calls
performed in order. -/
structure NicSGAssociationOutcome where
  result : Except HandlerError Unit
  idsSet : List String
  deriving DecidableEq, Repr

/-- Embedding of resourceNetworkInterfaceSecurityGroupAssociationRead: the
id is split on the bar character, the first half parsed, the interface
fetched; a not-found interface or a missing security group clears the id
and succeeds, an interface without properties is an error. -/
def resourceNetworkInterfaceSecurityGroupAssociationRead
    (dId : String)
    (nicParsed : Option (String × String))
    (getNic : ApiResult NetworkInterface) : NicSGAssociationOutcome × List LockEvent :=
  if (splitOnChar '|' dId.data).length ≠ 2 then
    ({ result := .error (.wrapped "Expected ID to be in the format of two halves"), idsSet := [] },
     [])
  else
    match nicParsed with
    | none => ({ result := .error (.wrapped "parsing the network interface id"), idsSet := [] }, [])
    | some (_name, _resourceGroup) =>
        match getNic with
        | .notFoundErr => ({ result := .ok (), idsSet := [""] }, [.parentRead])
        | .otherErr =>
            ({ result := .error (.wrapped "Error retrieving Network Interface"), idsSet := [] },
             [.parentRead])
        | .ok read =>
            match read.interfacePropertiesFormat with
            | none =>
                ({ result := .error (.wrapped "properties was nil for Network Interface")
                   idsSet := [] }, [.parentRead])
            | some props =>
                match props.networkSecurityGroup with
                | none => ({ result := .ok (), idsSet := [""] }, [.parentRead])
                | some sgId =>
                    match sgId with
                    | none => ({ result := .ok (), idsSet := [""] }, [.parentRead])
                    | some _ => ({ result := .ok (), idsSet := [] }, [.parentRead])

/-- Remote responses consumed by the association Create, including the tail
call into the read handler. -/
structure NicSGAssociationCreateEnv where
  nicParsed : Option (String × String)
  nsgParsed : Option String
  getNic : ApiResult NetworkInterface
  createOrUpdate : ApiResult Unit
  waitForCompletion : ApiResult Unit
  readNicParsed : Option (String × String)
  readGetNic : ApiResult NetworkInterface
  deriving DecidableEq, Repr

/-- Innermost part of the association Create, running under both named
locks: a present security group yields the already-exists error before any
write; otherwise the interface is written back and the id set to the two
configured ids joined by a bar, before tail-calling the read handler. -/
def nicSGAssociationCreateCore
    (cfg : NicSGAssociationConfig) (env : NicSGAssociationCreateEnv) :
    NicSGAssociationOutcome × List LockEvent :=
  (match env.getNic with
              | .notFoundErr =>
                  ({ result := .error (.wrapped "Network Interface was not found"), idsSet := [] },
                   [.parentRead])
              | .otherErr =>
                  ({ result := .error (.wrapped "Error retrieving Network Interface")
                     idsSet := [] }, [.parentRead])
              | .ok read =>
                  let resourceId := cfg.networkInterfaceId ++ "|" ++ cfg.networkSecurityGroupId
                  match read.interfacePropertiesFormat with
                  | none =>
                      ({ result := .error (.wrapped "properties was nil for Network Interface")
                         idsSet := [] }, [.parentRead])
                  | some props =>
                      if props.networkSecurityGroup ≠ none then
                        ({ result := .error (.importAsExists resourceId), idsSet := [] },
                         [.parentRead])
                      else
                        match env.createOrUpdate with
                        | .ok _ =>
                            match env.waitForCompletion with
                            | .ok _ =>
                                let r := resourceNetworkInterfaceSecurityGroupAssociationRead
                                  resourceId env.readNicParsed env.readGetNic
                                ({ result := r.1.result
                                   idsSet := resourceId :: r.1.idsSet },
                                 [.parentRead, .parentWrite] ++ r.2)
                            | _ =>
                                ({ result := .error (.wrapped
                                     "Error waiting for completion of Security Group Association")
                                   idsSet := [] }, [.parentRead, .parentWrite])
                        | _ =>
                            ({ result := .error (.wrapped
                                 "Error updating Security Group Association")
                               idsSet := [] }, [.parentRead, .parentWrite]))

/-- Embedding of resourceNetworkInterfaceSecurityGroupAssociationCreate: the
interface lock is taken after the interface id parses, the group lock after
the group id parses, both released by defer in reverse order around the
core. -/
def resourceNetworkInterfaceSecurityGroupAssociationCreate
    (cfg : NicSGAssociationConfig) (env : NicSGAssociationCreateEnv) :
    NicSGAssociationOutcome × List LockEvent :=
  match env.nicParsed with
  | none => ({ result := .error (.wrapped "parsing the network interface id"), idsSet := [] }, [])
  | some (networkInterfaceName, _resourceGroup) =>
      withNamedLock networkInterfaceName networkInterfaceResourceName
        (match env.nsgParsed with
         | none =>
             ({ result := .error (.wrapped "parsing the network security group id")
                idsSet := [] }, [])
         | some nsgName =>
             withNamedLock nsgName networkSecurityGroupResourceName
               (nicSGAssociationCreateCore cfg env))

/-- Remote responses consumed by the association Delete. -/
structure NicSGAssociationDeleteEnv where
  nicParsed : Option (String × String)
  updateNic : ApiResult Unit
  waitForCompletion : ApiResult Unit
  deriving DecidableEq, Repr

/-- Body of the association Delete, running under the interface lock: a
not-found interface is an error, the security group reference is cleared
and the interface written back through the SDK workaround update. -/
def nicSGAssociationDeleteBody
    (env : NicSGAssociationDeleteEnv)
    (getNic : ApiResult NetworkInterface) : NicSGAssociationOutcome × List LockEvent :=
  (match getNic with
          | .notFoundErr =>
              ({ result := .error (.wrapped "Network Interface was not found"), idsSet := [] },
               [.parentRead])
          | .otherErr =>
              ({ result := .error (.wrapped "Error retrieving Network Interface"), idsSet := [] },
               [.parentRead])
          | .ok read =>
              match read.interfacePropertiesFormat with
              | none =>
                  ({ result := .error (.wrapped "properties was nil for Network Interface")
                     idsSet := [] }, [.parentRead])
              | some _props =>
                  match env.updateNic with
                  | .ok _ =>
                      match env.waitForCompletion with
                      | .ok _ => ({ result := .ok (), idsSet := [] }, [.parentRead, .parentWrite])
                      | _ =>
                          ({ result := .error (.wrapped
                               "Error waiting for update of Network Interface")
                             idsSet := [] }, [.parentRead, .parentWrite])
                  | _ =>
                      ({ result := .error (.wrapped "Error updating Network Interface")
                         idsSet := [] }, [.parentRead, .parentWrite]))

/-- Embedding of resourceNetworkInterfaceSecurityGroupAssociationDelete: the
id split and parse precede the lock, so their failures produce no events;
otherwise the body runs under the named interface lock, released by defer
on every completion path. -/
def resourceNetworkInterfaceSecurityGroupAssociationDelete
    (dId : String) (env : NicSGAssociationDeleteEnv)
    (getNic : ApiResult NetworkInterface) : NicSGAssociationOutcome × List LockEvent :=
  if (splitOnChar '|' dId.data).length ≠ 2 then
    ({ result := .error (.wrapped "Expected ID to be in the format of two halves"), idsSet := [] },
     [])
  else
    match env.nicParsed with
    | none => ({ result := .error (.wrapped "parsing the network interface id"), idsSet := [] }, [])
    | some (name, _resourceGroup) =>
        withNamedLock name networkInterfaceResourceName (nicSGAssociationDeleteBody env getNic)

/-! ## Automation variable handlers (automation_variable.go) -/

/-- Lower-cased variable type, the varTypeLower of the handlers. -/
def automationVarTypeLower : AutomationVarType → String
  | .datetime => "datetime"
  | .bool => "bool"
  | .int => "int"
  | .str => "string"
  | .null => "null"

/-- Resource name string built by the handlers from the lower-cased type. -/
def automationVariableResourceName (varType : AutomationVarType) : String :=
  "azurerm_automation_variable_" ++ automationVarTypeLower varType

/-- SDK object automation.VariableProperties as the read handlers consume
it. -/
structure AutomationVariableProperties where
  description : Option String
  isEncrypted : Option Bool
  value : Option String
  deriving DecidableEq, Repr

/-- Variable object returned by the variable client Get. -/
structure AutomationVariableGetResponse where
  id : Option String
  name : Option String
  properties : Option AutomationVariableProperties
  deriving DecidableEq, Repr

/-- Remote responses consumed by the automation variable read handler. -/
structure AutomationVariableReadEnv where
  parsedId : Option (String × String × String)
  getResp : ApiResult AutomationVariableGetResponse
  deriving DecidableEq, Repr

/-- Outcome of the automation variable read handler: the result, the SetId
calls in order, and the value field written back when one was (the datetime
value is written through a fixed format string, abstracted here to the
parsed instant). -/
structure AutomationVariableReadOutcome where
  result : Except HandlerError Unit
  idsSet : List String
  valueSet : Option AutomationValue
  deriving DecidableEq, Repr

/-- Embedding of resourceAutomationVariableRead: a not-found response clears
the id and succeeds; any other Get error is wrapped; on success the value is
parsed back by ParseAzureAutomationVariableValue unless the variable is
encrypted, and a parse failure is surfaced as the handler error. -/
def resourceAutomationVariableRead (varType : AutomationVarType)
    (env : AutomationVariableReadEnv) : AutomationVariableReadOutcome :=
  match env.parsedId with
  | none => { result := .error (.wrapped "parsing the resource id"), idsSet := [], valueSet := none }
  | some _ =>
      match env.getResp with
      | .notFoundErr => { result := .ok (), idsSet := [""], valueSet := none }
      | .otherErr =>
          { result := .error (.wrapped "Error reading Automation Variable")
            idsSet := [], valueSet := none }
      | .ok resp =>
          match resp.properties with
          | none => { result := .ok (), idsSet := [], valueSet := none }
          | some properties =>
              let encrypted := properties.isEncrypted.getD false
              if encrypted then { result := .ok (), idsSet := [], valueSet := none }
              else
                match ParseAzureAutomationVariableValue
                    (automationVariableResourceName varType) properties.value with
                | .error e => { result := .error (.wrapped e), idsSet := [], valueSet := none }
                | .ok v =>
                    if varType = .null then { result := .ok (), idsSet := [], valueSet := none }
                    else { result := .ok (), idsSet := [], valueSet := v }

/-- Embedding of resourceAutomationVariableDelete: the handler wraps every
failure of the client Delete call, with no special case for a not-found
response. -/
def resourceAutomationVariableDelete
    (parsedId : Option (String × String × String))
    (deleteResp : ApiResult Unit) : Except HandlerError Unit :=
  match parsedId with
  | none => .error (.wrapped "parsing the resource id")
  | some _ =>
      match deleteResp with
      | .ok _ => .ok ()
      | .notFoundErr => .error (.wrapped "Error deleting Automation Variable")
      | .otherErr => .error (.wrapped "Error deleting Automation Variable")

/-! ## Storage sync handlers (storage_sync_resource.go) -/

/-- Storage sync service object as the read handler consumes it. -/
structure StorageSyncService where
  name : Option String
  location : Option String
  incomingTrafficPolicy : Option String
  deriving DecidableEq, Repr

/-- Outcome of the storage sync read handler. -/
structure StorageSyncReadOutcome where
  result : Except HandlerError Unit
  idsSet : List String
  deriving DecidableEq, Repr

/-- Embedding of resourceStorageSyncRead: a not-found response clears the id
and succeeds, any other Get error is wrapped. -/
def resourceStorageSyncRead
    (parsedId : Option (String × String))
    (getResp : ApiResult StorageSyncService) : StorageSyncReadOutcome :=
  match parsedId with
  | none => { result := .error (.wrapped "parsing the storage sync service id"), idsSet := [] }
  | some _ =>
      match getResp with
      | .notFoundErr => { result := .ok (), idsSet := [""] }
      | .otherErr => { result := .error (.wrapped "reading Storage Sync"), idsSet := [] }
      | .ok _ => { result := .ok (), idsSet := [] }

/-- Embedding of resourceStorageSyncDelete: every failure of the Delete call
or of the completion wait is wrapped, with no special case for a not-found
response. -/
def resourceStorageSyncDelete
    (parsedId : Option (String × String))
    (deleteResp waitResp : ApiResult Unit) : Except HandlerError Unit :=
  match parsedId with
  | none => .error (.wrapped "parsing the storage sync service id")
  | some _ =>
      match deleteResp with
      | .ok _ =>
          match waitResp with
          | .ok _ => .ok ()
          | .notFoundErr => .error (.wrapped "waiting for deletion of Storage Sync")
          | .otherErr => .error (.wrapped "waiting for deletion of Storage Sync")
      | .notFoundErr => .error (.wrapped "deleting Storage Sync")
      | .otherErr => .error (.wrapped "deleting Storage Sync")

/-! ## SQL firewall rule handlers (sql_firewall_rule_resource.go) -/

/-- Firewall rule object returned by the firewall rules client. -/
structure SqlFirewallRule where
  id : Option String
  startIPAddress : Option String
  endIPAddress : Option String
  deriving DecidableEq, Repr

/-- Outcome of the firewall rule read handler. -/
structure SqlFirewallRuleReadOutcome where
  result : Except HandlerError Unit
  idsSet : List String
  deriving DecidableEq, Repr

/-- Embedding of resourceSqlFirewallRuleRead: a not-found response clears
the id and succeeds, any other Get error is wrapped. -/
def resourceSqlFirewallRuleRead
    (parsedId : Option (String × String × String))
    (getResp : ApiResult SqlFirewallRule) : SqlFirewallRuleReadOutcome :=
  match parsedId with
  | none => { result := .error (.wrapped "parsing the firewall rule id"), idsSet := [] }
  | some _ =>
      match getResp with
      | .notFoundErr => { result := .ok (), idsSet := [""] }
      | .otherErr => { result := .error (.wrapped "retrieving SQL Firewall Rule"), idsSet := [] }
      | .ok _ => { result := .ok (), idsSet := [] }

/-- Embedding of resourceSqlFirewallRuleDelete: a failed Delete call whose
response was not-found is treated as success, any other failure is
wrapped. -/
def resourceSqlFirewallRuleDelete
    (parsedId : Option (String × String × String))
    (deleteResp : ApiResult Unit) : Except HandlerError Unit :=
  match parsedId with
  | none => .error (.wrapped "parsing the firewall rule id")
  | some _ =>
      match deleteResp with
      | .ok _ => .ok ()
      | .notFoundErr => .ok ()
      | .otherErr => .error (.wrapped "deleting SQL Firewall Rule")

/-- Remote responses consumed by the firewall rule Create/Update, including
the tail call into the read handler. -/
structure SqlFirewallRuleCreateUpdateEnv where
  isNewResource : Bool
  existingGet : ApiResult SqlFirewallRule
  createOrUpdate : ApiResult Unit
  finalGet : ApiResult SqlFirewallRule
  readParsedId : Option (String × String × String)
  readGet : ApiResult SqlFirewallRule
  deriving DecidableEq, Repr

/-- Outcome of the firewall rule Create/Update: the result (a nil
dereference of the final response id pointer is possible, as in the
source), the SetId calls in order, and the number of CreateOrUpdate calls
issued to the remote API. -/
structure SqlFirewallRuleCreateUpdateOutcome where
  result : GoExec (Except HandlerError Unit)
  idsSet : List String
  remoteWrites : Nat
  deriving DecidableEq, Repr

/-- Embedding of resourceSqlFirewallRuleCreateUpdate: on a new resource the
existence check runs first and a present remote rule with a non-empty id
aborts with the already-exists error before any write; then the rule is
written, re-fetched, the id pointer dereferenced and stored, and the read
handler tail-called. -/
def resourceSqlFirewallRuleCreateUpdate (env : SqlFirewallRuleCreateUpdateEnv) :
    SqlFirewallRuleCreateUpdateOutcome :=
  let proceed : SqlFirewallRuleCreateUpdateOutcome :=
    match env.createOrUpdate with
    | .ok _ =>
        match env.finalGet with
        | .ok resp =>
            match resp.id with
            | none => { result := .nilPanic, idsSet := [], remoteWrites := 1 }
            | some theId =>
                let r := resourceSqlFirewallRuleRead env.readParsedId env.readGet
                { result := .ret r.result
                  idsSet := theId :: r.idsSet
                  remoteWrites := 1 }
        | .notFoundErr =>
            { result := .ret (.error (.wrapped "Error retrieving SQL Firewall Rule"))
              idsSet := [], remoteWrites := 1 }
        | .otherErr =>
            { result := .ret (.error (.wrapped "Error retrieving SQL Firewall Rule"))
              idsSet := [], remoteWrites := 1 }
    | .notFoundErr =>
        { result := .ret (.error (.wrapped "Error creating SQL Firewall Rule"))
          idsSet := [], remoteWrites := 1 }
    | .otherErr =>
        { result := .ret (.error (.wrapped "Error creating SQL Firewall Rule"))
          idsSet := [], remoteWrites := 1 }
  if env.isNewResource then
    match env.existingGet with
    | .otherErr =>
        { result := .ret (.error (.wrapped
             "Error checking for presence of existing SQL Firewall Rule"))
          idsSet := [], remoteWrites := 0 }
    | .notFoundErr => proceed
    | .ok existing =>
        match existing.id with
        | some existingId =>
            if existingId ≠ "" then
              { result := .ret (.error (.importAsExists existingId))
                idsSet := [], remoteWrites := 0 }
            else proceed
        | none => proceed
  else proceed

/-! ## Data factory dataset delete handler (sql_firewall_rule_resource.go, datafactory package) -/

/-- Embedding of resourceDataFactoryDatasetAzureBlobDelete: a failed Delete
call whose response was not-found is treated as success, any other failure
is wrapped. -/
def resourceDataFactoryDatasetAzureBlobDelete
    (parsedId : Option (String × String × String))
    (deleteResp : ApiResult Unit) : Except HandlerError Unit :=
  match parsedId with
  | none => .error (.wrapped "parsing the dataset id")
  | some _ =>
      match deleteResp with
      | .ok _ => .ok ()
      | .notFoundErr => .ok ()
      | .otherErr => .error (.wrapped "Error deleting Data Factory Dataset Azure Blob")

/-! ## Portal dashboard handlers (portal_dashboard_resource.go) -/

/-- Dashboard object returned by the dashboards client. -/
structure PortalDashboard where
  location : Option String
  properties : Option Unit
  deriving DecidableEq, Repr

/-- Modelled from the spec: parse.NewDashboardID of the portal parse package
is outside the provided sources; per the specification an id is the parent
path joined with the resource name, here the subscription, resource group
and dashboard name segments. -/
def NewDashboardID (subscriptionId resourceGroup name : String) : String :=
  "/subscriptions/" ++ subscriptionId ++ "/resourceGroups/" ++ resourceGroup ++
    "/providers/Microsoft.Portal/dashboards/" ++ name

/-- Configuration fields of the dashboard resource. -/
structure DashboardConfig where
  name : String
  resourceGroupName : String
  subscriptionId : String
  deriving DecidableEq, Repr

/-- Outcome of a dashboard handler: the result, the SetId calls in order,
and the number of CreateOrUpdate calls issued. -/
structure DashboardOutcome where
  result : Except HandlerError Unit
  idsSet : List String
  remoteWrites : Nat
  deriving DecidableEq, Repr

/-- Embedding of resourceDashboardRead: a not-found response clears the id
and succeeds, any other Get error is wrapped. -/
def resourceDashboardRead
    (parsedId : Option (String × String))
    (getResp : ApiResult PortalDashboard) : DashboardOutcome :=
  match parsedId with
  | none => { result := .error (.wrapped "parsing the dashboard id"), idsSet := [], remoteWrites := 0 }
  | some _ =>
      match getResp with
      | .notFoundErr => { result := .ok (), idsSet := [""], remoteWrites := 0 }
      | .otherErr =>
          { result := .error (.wrapped "retrieving Dashboard"), idsSet := [], remoteWrites := 0 }
      | .ok _ => { result := .ok (), idsSet := [], remoteWrites := 0 }

/-- Remote responses consumed by the dashboard Create/Update, including the
tail call into the read handler. -/
structure DashboardCreateUpdateEnv where
  propertiesJsonOk : Bool
  createOrUpdate : ApiResult Unit
  readParsedId : Option (String × String)
  readGet : ApiResult PortalDashboard
  deriving DecidableEq, Repr

/-- Embedding of resourceDashboardCreateUpdate: the dashboard properties
string is unmarshalled, the dashboard written unconditionally (the source
performs no existence check and carries a TODO about missing import
support), the id set from the subscription, group and name, and the read
handler tail-called. -/
def resourceDashboardCreateUpdate (cfg : DashboardConfig) (env : DashboardCreateUpdateEnv) :
    DashboardOutcome :=
  if ¬ env.propertiesJsonOk then
    { result := .error (.wrapped "Error parsing JSON"), idsSet := [], remoteWrites := 0 }
  else
    match env.createOrUpdate with
    | .ok _ =>
        let newId := NewDashboardID cfg.subscriptionId cfg.resourceGroupName cfg.name
        let r := resourceDashboardRead env.readParsedId env.readGet
        { result := r.result
          idsSet := newId :: r.idsSet
          remoteWrites := 1 + r.remoteWrites }
    | .notFoundErr =>
        { result := .error (.wrapped "creating or updating Dashboard"), idsSet := []
          remoteWrites := 1 }
    | .otherErr =>
        { result := .error (.wrapped "creating or updating Dashboard"), idsSet := []
          remoteWrites := 1 }

/-- Embedding of resourceDashboardDelete: a failed Delete call whose
response was not-found is treated as success, any other failure is
wrapped. -/
def resourceDashboardDelete
    (parsedId : Option (String × String))
    (deleteResp : ApiResult Unit) : Except HandlerError Unit :=
  match parsedId with
  | none => .error (.wrapped "parsing the dashboard id")
  | some _ =>
      match deleteResp with
      | .ok _ => .ok ()
      | .notFoundErr => .ok ()
      | .otherErr => .error (.wrapped "deleting Dashboard")

/-- Test that a trace contains no acquisition or release of the lock keyed
by the given name and tag. -/
def noLocksFor (n t : String) (evs : List LockEvent) : Bool :=
  evs.all (fun e => lockDelta n t e = 0)

/-! ## Theorems -/

theorem wrapInt32_eq_self (g : Int) (h1 : int32Min ≤ g) (h2 : g ≤ int32Max) :
    wrapInt32 g = g := by
  unfold wrapInt32 int32Min int32Max at *
  have hmod : (g + 2 ^ 31) % 2 ^ 32 = g + 2 ^ 31 := by
    apply Int.emod_eq_of_lt <;> omega
  omega

/-- C10: the container registry token data source sets enabled to false
exactly when the remote token status equals the disabled status value, and
to true for every other status, the empty and unrecognised statuses
included. -/
theorem containerRegistryToken_enabled_iff_not_disabled
    (resourceGroup containerRegistryName name : String)
    (tok : ContainerRegistryToken) (i : String)
    (hid : tok.id = some i) (hne : i ≠ "") :
    ∃ st, dataSourceContainerRegistryTokenRead resourceGroup containerRegistryName name (.ok tok)
        = .ok st ∧ (st.enabled = false ↔ tok.status = TokenStatusDisabled) := by
  have hcond : ¬ (tok.id = none ∨ tok.id = some "") := by
    rw [hid]
    rintro (h | h)
    · exact Option.noConfusion h
    · exact hne (Option.some.injEq .. ▸ h)
  simp only [dataSourceContainerRegistryTokenRead]
  rw [if_neg hcond]
  refine ⟨_, rfl, ?_⟩
  by_cases hstat : tok.status = TokenStatusDisabled
  · simp [hstat]
  · simp [hstat]

theorem containerRegistryToken_enabled_witness :
    ∃ st, dataSourceContainerRegistryTokenRead "group1" "registry1" "token1"
        (.ok ⟨some "id1", some "token1", none, "enabled"⟩) = .ok st ∧
      (st.enabled = false ↔ "enabled" = TokenStatusDisabled) := by
  exact containerRegistryToken_enabled_iff_not_disabled "group1" "registry1" "token1"
    ⟨some "id1", some "token1", none, "enabled"⟩ "id1" rfl (by decide)

/-- C4 counterexample: for the Manual mode the expand function drops the
grace period, so the flatten of the expand of a Manual block with
grace_minutes five omits the grace_minutes key instead of reproducing it. -/
theorem sqlFailoverGroupReadWritePolicy_manual_counterexample :
    flattenSqlFailoverGroupReadWritePolicy
        (some (expandSqlFailoverGroupReadWritePolicy ⟨sqlManual, 5⟩)) ≠
      [⟨sqlManual, some 5⟩] := by
  decide

/-- C4 amended: the flatten of the expand reproduces an Automatic block
with its grace_minutes value in the int32 range, while for a Manual block
the expand drops the grace period and the flattened block carries the mode
only. -/
theorem sqlFailoverGroupReadWritePolicy_roundtrip_amended :
    (∀ g : Int, int32Min ≤ g → g ≤ int32Max →
      flattenSqlFailoverGroupReadWritePolicy
          (some (expandSqlFailoverGroupReadWritePolicy ⟨sqlAutomatic, g⟩)) =
        [⟨sqlAutomatic, some g⟩]) ∧
    (∀ g : Int, flattenSqlFailoverGroupReadWritePolicy
        (some (expandSqlFailoverGroupReadWritePolicy ⟨sqlManual, g⟩)) = [⟨sqlManual, none⟩]) := by
  constructor
  · intro g h1 h2
    unfold expandSqlFailoverGroupReadWritePolicy flattenSqlFailoverGroupReadWritePolicy
    rw [wrapInt32_eq_self g h1 h2]
    rfl
  · intro g
    rfl

theorem sqlFailoverGroupReadWritePolicy_roundtrip_witness :
    flattenSqlFailoverGroupReadWritePolicy
        (some (expandSqlFailoverGroupReadWritePolicy ⟨sqlAutomatic, 30⟩)) =
      [⟨sqlAutomatic, some 30⟩] ∧
    flattenSqlFailoverGroupReadWritePolicy
        (some (expandSqlFailoverGroupReadWritePolicy ⟨sqlManual, 30⟩)) = [⟨sqlManual, none⟩] :=
  ⟨sqlFailoverGroupReadWritePolicy_roundtrip_amended.1 30 (by decide) (by decide),
   sqlFailoverGroupReadWritePolicy_roundtrip_amended.2 30⟩

theorem iotHubDeleteUpdatedEndpoints_foldl_acc
    (endpointName : String) (endpoints : List RoutingServiceBusQueueEndpointProperties)
    (acc : List RoutingServiceBusQueueEndpointProperties) :
    endpoints.foldl
        (fun acc2 endpoint =>
          match endpoint.name with
          | some existingEndpointName =>
              if ¬ goEqualFold existingEndpointName endpointName then acc2 ++ [endpoint] else acc2
          | none => acc2)
        acc =
      acc ++ endpoints.filter (fun e =>
        match e.name with
        | some n => ! goEqualFold n endpointName
        | none => false) := by
  induction endpoints generalizing acc with
  | nil => simp
  | cons e rest ih =>
      rw [List.foldl_cons, List.filter_cons]
      cases hn : e.name with
      | none => simp only [hn]; exact ih acc
      | some n =>
          simp only [hn]
          by_cases hb : goEqualFold n endpointName = true
          · rw [if_neg (by simp [hb])]
            rw [ih acc]
            simp [hb]
          · rw [if_pos (by simp [hb])]
            rw [ih (acc ++ [e])]
            simp only [Bool.not_eq_true] at hb
            simp [hb]

/-- C5 counterexample: an endpoint whose name pointer is nil does not
case-insensitively equal the deleted name, yet the delete loop removes it
instead of preserving it. -/
theorem iotHubDeleteUpdatedEndpoints_nilName_counterexample :
    iotHubDeleteUpdatedEndpoints [⟨some "cs", none, none, none⟩] "x" = [] ∧
      (⟨some "cs", none, none, none⟩ : RoutingServiceBusQueueEndpointProperties).name ≠
        some "x" := by
  decide

/-- C5 amended: the delete loop keeps, unchanged and in their original
order, exactly the endpoints carrying a name that does not
case-insensitively equal the deleted name; endpoints whose name pointer is
nil are removed along with the matching ones. -/
theorem iotHubDeleteUpdatedEndpoints_eq_filter
    (endpoints : List RoutingServiceBusQueueEndpointProperties) (endpointName : String) :
    iotHubDeleteUpdatedEndpoints endpoints endpointName =
      endpoints.filter (fun e =>
        match e.name with
        | some n => ! goEqualFold n endpointName
        | none => false) := by
  unfold iotHubDeleteUpdatedEndpoints
  simpa using iotHubDeleteUpdatedEndpoints_foldl_acc endpointName endpoints []

/-- C1 counterexample: the automation variable Delete returns an error on a
delete call whose response was not-found, instead of treating it as silent
success. -/
theorem automationVariableDelete_notFound_errors :
    exceptIsError
        (resourceAutomationVariableDelete (some ("group1", "account1", "var1")) .notFoundErr) =
      true := by rfl

/-- C1 amended: a not-found response during Read clears the id and succeeds
in the automation variable, SQL firewall rule and storage sync handlers; a
not-found delete response is silent success in the SQL firewall rule, data
factory dataset and dashboard Deletes, while the automation variable and
storage sync Deletes wrap every delete failure, a not-found response
included, into an error. -/
theorem notFound_policy_amended :
    (∀ varType p, resourceAutomationVariableRead varType ⟨some p, .notFoundErr⟩ =
        { result := .ok (), idsSet := [""], valueSet := none }) ∧
    (∀ p, resourceSqlFirewallRuleRead (some p) .notFoundErr =
        { result := .ok (), idsSet := [""] }) ∧
    (∀ p, resourceStorageSyncRead (some p) .notFoundErr = { result := .ok (), idsSet := [""] }) ∧
    (∀ p, resourceSqlFirewallRuleDelete (some p) .notFoundErr = .ok ()) ∧
    (∀ p, resourceDataFactoryDatasetAzureBlobDelete (some p) .notFoundErr = .ok ()) ∧
    (∀ p, resourceDashboardDelete (some p) .notFoundErr = .ok ()) ∧
    (∀ p, exceptIsError (resourceAutomationVariableDelete (some p) .notFoundErr) = true) ∧
    (∀ p waitResp,
        exceptIsError (resourceStorageSyncDelete (some p) .notFoundErr waitResp) = true) := by
  refine ⟨fun _ _ => rfl, fun _ => rfl, fun _ => rfl, fun _ => rfl, fun _ => rfl,
    fun _ => rfl, fun _ => rfl, fun _ _ => rfl⟩

/-- C2: the portal dashboard Create performs no existence check; against a
pre-existing remote dashboard it issues the CreateOrUpdate write and
returns success, never the distinct already-exists error. -/
theorem dashboardCreateUpdate_overwrites_existing :
    resourceDashboardCreateUpdate ⟨"dash1", "group1", "sub1"⟩
        ⟨true, .ok (), some ("group1", "dash1"), .ok ⟨some "westus", some ()⟩⟩ =
      { result := .ok ()
        idsSet := [NewDashboardID "sub1" "group1" "dash1"]
        remoteWrites := 1 } := by rfl

/-- C9: an IoT Hub state whose routing endpoints are present with a non-nil
event hub list and a nil service-bus queue list makes the Create/Update
endpoint iteration dereference the nil list pointer: the guard initialises
the queue list only when the event hub list is nil. -/
theorem iotHubEndpointCreateUpdate_nilQueues_dereference :
    (resourceIotHubEndpointServiceBusQueueCreateUpdate
        ⟨"endpoint1", "group1", "hub1", "connstr", "sub1", true⟩
        ⟨.ok ⟨"hubid1", some ⟨some ⟨some ⟨none, some []⟩⟩⟩⟩,
         .ok (), .ok (), some ("group1", "hub1", "endpoint1"),
         .ok ⟨"hubid1", none⟩⟩).1.result = .nilPanic := by rfl

theorem lockStep_foldl_const (n t : String) (evs : List LockEvent)
    (h : noLocksFor n t evs = true) (c : Int) (hc : 0 < c) (b : Bool) :
    evs.foldl (lockStep n t) (c, b) = (c, b) := by
  induction evs generalizing b with
  | nil => rfl
  | cons e rest ih =>
      simp only [noLocksFor, List.all_cons, Bool.and_eq_true, decide_eq_true_eq] at h
      obtain ⟨he, hrest⟩ := h
      rw [List.foldl_cons]
      have hstep : lockStep n t (c, b) e = (c, b) := by
        cases e with
        | parentRead => simp [lockStep, hc]
        | parentWrite => simp [lockStep, hc]
        | lockAcq n2 t2 => simp [lockStep, he]
        | lockRel n2 t2 => simp [lockStep, he]
      rw [hstep]
      exact ih (by simpa [noLocksFor] using hrest) b

theorem heldCount_eq_zero_of_noLocks (n t : String) (evs : List LockEvent)
    (h : noLocksFor n t evs = true) : heldCount n t evs = 0 := by
  induction evs with
  | nil => rfl
  | cons e rest ih =>
      simp only [noLocksFor, List.all_cons, Bool.and_eq_true, decide_eq_true_eq] at h
      obtain ⟨he, hrest⟩ := h
      simp [heldCount, he] at *
      simpa [noLocksFor, heldCount] using ih (by simpa [noLocksFor] using hrest)

theorem withNamedLock_locked {A : Type} (n t : String) (body : A × List LockEvent)
    (h : noLocksFor n t body.2 = true) :
    parentAccessesLocked n t (withNamedLock n t body).2 = true ∧
      lockReleasedAtEnd n t (withNamedLock n t body).2 = true := by
  constructor
  · unfold parentAccessesLocked withNamedLock
    dsimp only
    simp only [List.foldl_cons, List.foldl_append]
    rw [show lockStep n t (0, true) (.lockAcq n t) = (1, true) by simp [lockStep, lockDelta]]
    rw [lockStep_foldl_const n t body.2 h 1 one_pos true]
    simp [lockStep, lockDelta]
  · unfold lockReleasedAtEnd heldCount withNamedLock
    dsimp only
    simp only [List.map_cons, List.map_append, List.sum_cons, List.sum_append]
    have hz : (body.2.map (lockDelta n t)).sum = 0 := heldCount_eq_zero_of_noLocks n t body.2 h
    simp [lockDelta, hz]

theorem noLocksFor_append (n t : String) (a b : List LockEvent) :
    noLocksFor n t (a ++ b) = (noLocksFor n t a && noLocksFor n t b) := by
  simp [noLocksFor]

theorem noLocksFor_withNamedLock_of_tag_ne {A : Type} (n t n2 t2 : String)
    (body : A × List LockEvent) (hne : t2 ≠ t) (h : noLocksFor n t body.2 = true) :
    noLocksFor n t (withNamedLock n2 t2 body).2 = true := by
  have hcond : ¬ (n2 = n ∧ t2 = t) := fun hc => hne hc.2
  simp only [withNamedLock, noLocksFor] at h ⊢
  simp only [List.all_eq_true, decide_eq_true_eq] at h
  simp [List.all_cons, List.all_append, lockDelta, hcond]
  intro x hx
  simpa [lockDelta] using h x hx

theorem heldCount_withNamedLock {A : Type} (n t n2 t2 : String) (body : A × List LockEvent) :
    heldCount n t (withNamedLock n2 t2 body).2 = heldCount n t body.2 := by
  simp only [withNamedLock, heldCount, List.map_cons, List.map_append, List.sum_cons,
    List.sum_append]
  by_cases hc : n2 = n ∧ t2 = t
  · simp [lockDelta, hc]
  · simp [lockDelta, hc]

theorem noLocksFor_iotHubEndpointRead (n t : String)
    (p : Option (String × String × String)) (g : ApiResult IotHub) :
    noLocksFor n t (resourceIotHubEndpointServiceBusQueueRead p g).2 = true := by
  rcases p with _ | ⟨rg, hub, ep⟩
  · rfl
  · cases g with
    | notFoundErr => rfl
    | otherErr => rfl
    | ok h =>
        rcases h with ⟨hid, hprops⟩
        rcases hprops with _ | ⟨routing⟩
        · rfl
        · rcases routing with _ | ⟨eps⟩
          · rfl
          · rcases eps with _ | ⟨sbq, eh⟩
            · rfl
            · rcases sbq with _ | l <;> rfl

theorem noLocksFor_parentRead (n t : String) : noLocksFor n t [.parentRead] = true := rfl

theorem noLocksFor_parentReadWrite (n t : String) :
    noLocksFor n t [.parentRead, .parentWrite] = true := rfl

set_option maxHeartbeats 1000000 in
theorem noLocksFor_iotHubCreateBody (n t : String) (cfg : IotHubEndpointConfig)
    (env : IotHubEndpointCreateUpdateEnv) :
    noLocksFor n t (iotHubEndpointCreateUpdateBody cfg env).2 = true := by
  obtain ⟨getHub, cou, wait, rparsed, rget⟩ := env
  cases getHub with
  | notFoundErr => rfl
  | otherErr => rfl
  | ok hub =>
      obtain ⟨hid, hprops⟩ := hub
      cases hprops with
      | none => rfl
      | some props =>
          simp only [iotHubEndpointCreateUpdateBody]
          repeat' split
          all_goals first
            | rfl
            | (rw [noLocksFor_append, noLocksFor_parentReadWrite,
                noLocksFor_iotHubEndpointRead]; rfl)

theorem noLocksFor_iotHubDeleteBody (n t : String) (endpointName : String)
    (getHub : ApiResult IotHub) (cou wait : ApiResult Unit) :
    noLocksFor n t (iotHubEndpointDeleteBody endpointName getHub cou wait).2 = true := by
  unfold iotHubEndpointDeleteBody
  repeat' split
  all_goals
    simp [noLocksFor, lockDelta]

theorem noLocksFor_nicSGAssociationRead (n t : String) (dId : String)
    (nicParsed : Option (String × String)) (getNic : ApiResult NetworkInterface) :
    noLocksFor n t (resourceNetworkInterfaceSecurityGroupAssociationRead dId nicParsed getNic).2 =
      true := by
  unfold resourceNetworkInterfaceSecurityGroupAssociationRead
  repeat' split
  all_goals
    simp [noLocksFor, lockDelta]

theorem noLocksFor_nicSGAssociationCreateCore (n t : String) (cfg : NicSGAssociationConfig)
    (env : NicSGAssociationCreateEnv) :
    noLocksFor n t (nicSGAssociationCreateCore cfg env).2 = true := by
  unfold nicSGAssociationCreateCore
  repeat' split
  all_goals first
    | rfl
    | (rw [noLocksFor_append, noLocksFor_parentReadWrite, noLocksFor_nicSGAssociationRead]; rfl)

theorem noLocksFor_nicSGAssociationDeleteBody (n t : String)
    (env : NicSGAssociationDeleteEnv) (getNic : ApiResult NetworkInterface) :
    noLocksFor n t (nicSGAssociationDeleteBody env getNic).2 = true := by
  unfold nicSGAssociationDeleteBody
  repeat' split
  all_goals
    simp [noLocksFor, lockDelta]

/-- C7: every Create, Update or Delete handler mutating a shared parent
takes the named lock keyed by the parent name and resource-type tag before
reading the parent, performs all parent reads and writes while holding it,
and releases it on every completion path; the association Create also
releases the additionally taken security-group lock on every path, and the
paths failing before the lock is taken produce no parent access at all. -/
theorem lock_discipline_parent_mutation :
    (∀ (cfg : IotHubEndpointConfig) (env : IotHubEndpointCreateUpdateEnv),
        parentAccessesLocked cfg.iothubName IothubResourceName
            (resourceIotHubEndpointServiceBusQueueCreateUpdate cfg env).2 = true ∧
          lockReleasedAtEnd cfg.iothubName IothubResourceName
            (resourceIotHubEndpointServiceBusQueueCreateUpdate cfg env).2 = true) ∧
    (∀ (rg hub ep : String) (g : ApiResult IotHub) (c w : ApiResult Unit),
        parentAccessesLocked hub IothubResourceName
            (resourceIotHubEndpointServiceBusQueueDelete ⟨some (rg, hub, ep), g, c, w⟩).2 = true ∧
          lockReleasedAtEnd hub IothubResourceName
            (resourceIotHubEndpointServiceBusQueueDelete ⟨some (rg, hub, ep), g, c, w⟩).2 =
              true) ∧
    (∀ (g : ApiResult IotHub) (c w : ApiResult Unit),
        (resourceIotHubEndpointServiceBusQueueDelete ⟨none, g, c, w⟩).2 = []) ∧
    (∀ (cfg : NicSGAssociationConfig) (nicName rgName nsgName : String)
        (getNic : ApiResult NetworkInterface) (c w : ApiResult Unit)
        (rp : Option (String × String)) (rg2 : ApiResult NetworkInterface),
        parentAccessesLocked nicName networkInterfaceResourceName
            (resourceNetworkInterfaceSecurityGroupAssociationCreate cfg
              ⟨some (nicName, rgName), some nsgName, getNic, c, w, rp, rg2⟩).2 = true ∧
          lockReleasedAtEnd nicName networkInterfaceResourceName
            (resourceNetworkInterfaceSecurityGroupAssociationCreate cfg
              ⟨some (nicName, rgName), some nsgName, getNic, c, w, rp, rg2⟩).2 = true ∧
          lockReleasedAtEnd nsgName networkSecurityGroupResourceName
            (resourceNetworkInterfaceSecurityGroupAssociationCreate cfg
              ⟨some (nicName, rgName), some nsgName, getNic, c, w, rp, rg2⟩).2 = true) ∧
    (∀ (cfg : NicSGAssociationConfig) (nicName rgName : String)
        (getNic : ApiResult NetworkInterface) (c w : ApiResult Unit)
        (rp : Option (String × String)) (rg2 : ApiResult NetworkInterface),
        parentAccessesLocked nicName networkInterfaceResourceName
            (resourceNetworkInterfaceSecurityGroupAssociationCreate cfg
              ⟨some (nicName, rgName), none, getNic, c, w, rp, rg2⟩).2 = true ∧
          lockReleasedAtEnd nicName networkInterfaceResourceName
            (resourceNetworkInterfaceSecurityGroupAssociationCreate cfg
              ⟨some (nicName, rgName), none, getNic, c, w, rp, rg2⟩).2 = true) ∧
    (∀ (cfg : NicSGAssociationConfig) (nsgParsed : Option String)
        (getNic : ApiResult NetworkInterface) (c w : ApiResult Unit)
        (rp : Option (String × String)) (rg2 : ApiResult NetworkInterface),
        (resourceNetworkInterfaceSecurityGroupAssociationCreate cfg
          ⟨none, nsgParsed, getNic, c, w, rp, rg2⟩).2 = []) ∧
    (∀ (dId nicName rgName : String) (u w : ApiResult Unit)
        (getNic : ApiResult NetworkInterface),
        parentAccessesLocked nicName networkInterfaceResourceName
            (resourceNetworkInterfaceSecurityGroupAssociationDelete dId
              ⟨some (nicName, rgName), u, w⟩ getNic).2 = true ∧
          lockReleasedAtEnd nicName networkInterfaceResourceName
            (resourceNetworkInterfaceSecurityGroupAssociationDelete dId
              ⟨some (nicName, rgName), u, w⟩ getNic).2 = true) := by
  have htagne : networkSecurityGroupResourceName ≠ networkInterfaceResourceName := by decide
  refine ⟨?_, ?_, ?_, ?_, ?_, ?_, ?_⟩
  · intro cfg env
    exact withNamedLock_locked _ _ _ (noLocksFor_iotHubCreateBody _ _ cfg env)
  · intro rg hub ep g c w
    exact withNamedLock_locked _ _ _ (noLocksFor_iotHubDeleteBody _ _ ep g c w)
  · intro g c w
    rfl
  · intro cfg nicName rgName nsgName getNic c w rp rg2
    have hinner : noLocksFor nicName networkInterfaceResourceName
        (withNamedLock nsgName networkSecurityGroupResourceName
          (nicSGAssociationCreateCore cfg
            ⟨some (nicName, rgName), some nsgName, getNic, c, w, rp, rg2⟩)).2 = true :=
      noLocksFor_withNamedLock_of_tag_ne _ _ _ _ _ htagne
        (noLocksFor_nicSGAssociationCreateCore _ _ _ _)
    refine ⟨(withNamedLock_locked _ _ _ hinner).1, (withNamedLock_locked _ _ _ hinner).2, ?_⟩
    have hc : heldCount nsgName networkSecurityGroupResourceName
        (withNamedLock nicName networkInterfaceResourceName
          (withNamedLock nsgName networkSecurityGroupResourceName
            (nicSGAssociationCreateCore cfg
              ⟨some (nicName, rgName), some nsgName, getNic, c, w, rp, rg2⟩))).2 = 0 := by
      rw [heldCount_withNamedLock, heldCount_withNamedLock,
        heldCount_eq_zero_of_noLocks _ _ _ (noLocksFor_nicSGAssociationCreateCore _ _ _ _)]
    simp only [resourceNetworkInterfaceSecurityGroupAssociationCreate, lockReleasedAtEnd]
    simp [hc]
  · intro cfg nicName rgName getNic c w rp rg2
    exact withNamedLock_locked _ _ _ rfl
  · intro cfg nsgParsed getNic c w rp rg2
    rfl
  · intro dId nicName rgName u w getNic
    simp only [resourceNetworkInterfaceSecurityGroupAssociationDelete]
    split
    · exact ⟨rfl, rfl⟩
    · exact withNamedLock_locked _ _ _ (noLocksFor_nicSGAssociationDeleteBody _ _ _ _)

theorem iotHubEndpointRead_idsSet (p : Option (String × String × String))
    (g : ApiResult IotHub) :
    (resourceIotHubEndpointServiceBusQueueRead p g).1.idsSet = [] := by
  unfold resourceIotHubEndpointServiceBusQueueRead
  repeat' split
  all_goals rfl

/-- C6: the id written by Create is the deterministic concatenation of the
parent id and the resource name: the IoT Hub endpoint Create on success
sets exactly the hub id followed by the Endpoints segment and the endpoint
name (so two runs over the same parent id and name set the same id); the
association Create on success first sets the interface id and group id
joined by a bar; the IoT Hub endpoint Read never touches the id, and a
successful association Read of an existing association leaves the id
untouched. -/
theorem resource_id_deterministic_and_stable :
    (∀ (cfg : IotHubEndpointConfig) (env : IotHubEndpointCreateUpdateEnv) (hub : IotHub),
        env.getHub = .ok hub →
        (resourceIotHubEndpointServiceBusQueueCreateUpdate cfg env).1.result = .ret (.ok ()) →
        (resourceIotHubEndpointServiceBusQueueCreateUpdate cfg env).1.idsSet =
          [hub.id ++ "/Endpoints/" ++ cfg.name]) ∧
    (∀ (cfg cfg2 : IotHubEndpointConfig) (env env2 : IotHubEndpointCreateUpdateEnv)
        (hub hub2 : IotHub),
        env.getHub = .ok hub → env2.getHub = .ok hub2 → hub.id = hub2.id →
        cfg.name = cfg2.name →
        (resourceIotHubEndpointServiceBusQueueCreateUpdate cfg env).1.result = .ret (.ok ()) →
        (resourceIotHubEndpointServiceBusQueueCreateUpdate cfg2 env2).1.result = .ret (.ok ()) →
        (resourceIotHubEndpointServiceBusQueueCreateUpdate cfg env).1.idsSet =
          (resourceIotHubEndpointServiceBusQueueCreateUpdate cfg2 env2).1.idsSet) ∧
    (∀ (p : Option (String × String × String)) (g : ApiResult IotHub),
        (resourceIotHubEndpointServiceBusQueueRead p g).1.idsSet = []) ∧
    (∀ (cfg : NicSGAssociationConfig) (env : NicSGAssociationCreateEnv),
        (resourceNetworkInterfaceSecurityGroupAssociationCreate cfg env).1.result = .ok () →
        (resourceNetworkInterfaceSecurityGroupAssociationCreate cfg env).1.idsSet.head? =
          some (cfg.networkInterfaceId ++ "|" ++ cfg.networkSecurityGroupId)) ∧
    (∀ (dId nm rg i sgid : String),
        (splitOnChar '|' dId.data).length = 2 →
        (resourceNetworkInterfaceSecurityGroupAssociationRead dId (some (nm, rg))
            (.ok ⟨some i, some ⟨some (some sgid)⟩⟩)).1 =
          { result := .ok (), idsSet := [] }) := by
  have hmain : ∀ (cfg : IotHubEndpointConfig) (env : IotHubEndpointCreateUpdateEnv)
      (hub : IotHub),
      env.getHub = .ok hub →
      (resourceIotHubEndpointServiceBusQueueCreateUpdate cfg env).1.result = .ret (.ok ()) →
      (resourceIotHubEndpointServiceBusQueueCreateUpdate cfg env).1.idsSet =
        [hub.id ++ "/Endpoints/" ++ cfg.name] := by
    intro cfg env hub hget hres
    have hfst : (resourceIotHubEndpointServiceBusQueueCreateUpdate cfg env).1 =
        (iotHubEndpointCreateUpdateBody cfg env).1 := rfl
    rw [hfst] at hres ⊢
    unfold iotHubEndpointCreateUpdateBody at hres ⊢
    rw [hget] at hres ⊢
    dsimp only at hres ⊢
    repeat' split at hres <;> try simp at hres
    all_goals
      simp_all [iotHubEndpointRead_idsSet]
  refine ⟨hmain, ?_, ?_, ?_, ?_⟩
  · intro cfg cfg2 env env2 hub hub2 hget hget2 hid hname hres hres2
    rw [hmain cfg env hub hget hres, hmain cfg2 env2 hub2 hget2 hres2, hid, hname]
  · exact iotHubEndpointRead_idsSet
  · intro cfg env hres
    unfold resourceNetworkInterfaceSecurityGroupAssociationCreate at hres ⊢
    split at hres
    · simp at hres
    · split at hres
      · simp [withNamedLock] at hres
      · simp only [withNamedLock] at hres ⊢
        unfold nicSGAssociationCreateCore at hres ⊢
        repeat' split at hres <;> try simp at hres
        all_goals simp_all
  · intro dId nm rg i sgid hsplit
    unfold resourceNetworkInterfaceSecurityGroupAssociationRead
    rw [if_neg (by simp [hsplit])]

theorem resource_id_witness :
    (resourceIotHubEndpointServiceBusQueueCreateUpdate
        ⟨"ep1", "rg1", "hub1", "cs1", "sub1", true⟩
        ⟨.ok ⟨"PID", some ⟨none⟩⟩, .ok (), .ok (), some ("rg1", "hub1", "ep1"),
         .ok ⟨"PID", none⟩⟩).1.idsSet = ["PID" ++ "/Endpoints/" ++ "ep1"] ∧
    (resourceNetworkInterfaceSecurityGroupAssociationCreate
        ⟨"nic1", "nsg1"⟩
        ⟨some ("nicname", "rg1"), some "nsgname", .ok ⟨some "i1", some ⟨none⟩⟩, .ok (), .ok (),
         some ("nicname", "rg1"), .ok ⟨some "i1", some ⟨some (some "nsg1")⟩⟩⟩).1.idsSet.head? =
      some ("nic1" ++ "|" ++ "nsg1") ∧
    (resourceNetworkInterfaceSecurityGroupAssociationRead "nic1|nsg1"
        (some ("nicname", "rg1")) (.ok ⟨some "i1", some ⟨some (some "nsg1")⟩⟩)).1 =
      { result := .ok (), idsSet := [] } :=
  ⟨resource_id_deterministic_and_stable.1 _ _ ⟨"PID", some ⟨none⟩⟩ rfl rfl,
   resource_id_deterministic_and_stable.2.2.2.1 _ _ rfl,
   resource_id_deterministic_and_stable.2.2.2.2 "nic1|nsg1" "nicname" "rg1" "i1" "nsg1"
     (by decide)⟩

theorem natDigitChar_isDigit (d : Nat) (h : d < 10) : isDigitChar (natDigitChar d) = true := by
  interval_cases d <;> decide

theorem natDigitChar_toNat (d : Nat) (h : d < 10) : (natDigitChar d).toNat = 48 + d := by
  interval_cases d <;> decide

theorem natToDigitsCore_spec (fuel : Nat) :
    ∀ n, n < fuel →
      (natToDigitsCore fuel n).all isDigitChar = true ∧
      natToDigitsCore fuel n ≠ [] ∧
      ∀ a : Nat, (natToDigitsCore fuel n).foldl (fun a2 c => 10 * a2 + (c.toNat - 48)) a =
        a * 10 ^ (natToDigitsCore fuel n).length + n := by
  induction fuel with
  | zero => intro n hn; omega
  | succ fuel ih =>
      intro n hn
      by_cases h10 : n < 10
      · refine ⟨?_, ?_, ?_⟩
        · simp [natToDigitsCore, h10, natDigitChar_isDigit n h10]
        · simp [natToDigitsCore, h10]
        · intro a
          simp [natToDigitsCore, h10, natDigitChar_toNat n h10]
          omega
      · have hrec : n / 10 < fuel := by omega
        obtain ⟨hall, hne, hfold⟩ := ih (n / 10) hrec
        refine ⟨?_, ?_, ?_⟩
        · simp [natToDigitsCore, h10, List.all_append, hall,
            natDigitChar_isDigit (n % 10) (Nat.mod_lt n (by omega))]
        · simp [natToDigitsCore, h10]
        · intro a
          simp only [natToDigitsCore, if_neg h10, List.foldl_append, List.foldl_cons,
            List.foldl_nil, List.length_append, List.length_cons, List.length_nil]
          rw [hfold a, natDigitChar_toNat (n % 10) (Nat.mod_lt n (by omega))]
          have hmod : 48 + n % 10 - 48 = n % 10 := by omega
          rw [hmod, pow_succ]
          have hdm : 10 * (n / 10) + n % 10 = n := by omega
          ring_nf
          omega

theorem goParseDigits_natToDigits (n : Nat) : goParseDigits (natToDigits n) = some n := by
  obtain ⟨hall, hne, hfold⟩ := natToDigitsCore_spec (n + 1) n (by omega)
  unfold natToDigits at *
  unfold goParseDigits
  rw [if_neg (by simpa [List.isEmpty_iff] using hne), if_pos hall]
  have := hfold 0
  simp at this
  simp [this]

theorem natToDigits_head_digit (n : Nat) :
    ∃ c cs, natToDigits n = c :: cs ∧ isDigitChar c = true := by
  obtain ⟨hall, hne, -⟩ := natToDigitsCore_spec (n + 1) n (by omega)
  unfold natToDigits at *
  cases hd : natToDigitsCore (n + 1) n with
  | nil => exact absurd hd hne
  | cons c cs =>
      refine ⟨c, cs, rfl, ?_⟩
      rw [hd] at hall
      simp [List.all_cons] at hall
      exact hall.1

theorem isDigitChar_toNat (c : Char) (h : isDigitChar c = true) :
    48 ≤ c.toNat ∧ c.toNat ≤ 57 := by
  simp only [isDigitChar, Bool.and_eq_true, decide_eq_true_eq] at h
  exact ⟨h.1, h.2⟩

theorem isDigitChar_ne (c : Char) (h : isDigitChar c = true) (d : Char)
    (hd : d.toNat < 48 ∨ 57 < d.toNat) : c ≠ d := by
  obtain ⟨h1, h2⟩ := isDigitChar_toNat c h
  intro he
  subst he
  omega

theorem goParseIntCore_natToDigits (bitSize : Nat) (neg : Bool) (m : Nat)
    (h : ¬ ((if neg then -(m : Int) else (m : Int)) < -(2 ^ (bitSize - 1)) ∨
      (if neg then -(m : Int) else (m : Int)) > 2 ^ (bitSize - 1) - 1)) :
    goParseIntCore bitSize neg (natToDigits m) =
      some (if neg then -(m : Int) else (m : Int)) := by
  unfold goParseIntCore
  simp only [goParseDigits_natToDigits]
  rw [if_neg h]

theorem goParseInt_goItoa (bitSize : Nat) (n : Int)
    (hlo : -(2 ^ (bitSize - 1)) ≤ n) (hhi : n ≤ 2 ^ (bitSize - 1) - 1) :
    goParseInt bitSize (goItoa n) = some n := by
  by_cases hneg : n < 0
  · have hdata : (goItoa n).data = '-' :: natToDigits n.natAbs := by
      simp [goItoa, hneg]
    unfold goParseInt
    rw [hdata]
    dsimp only
    rw [if_neg (by decide), if_pos rfl]
    rw [goParseIntCore_natToDigits bitSize true n.natAbs (by rw [if_pos rfl]; omega)]
    rw [if_pos rfl]
    have hv : -(n.natAbs : Int) = n := by omega
    rw [hv]
  · have hdata : (goItoa n).data = natToDigits n.natAbs := by
      simp [goItoa, hneg]
    obtain ⟨c, cs, hcons, hdig⟩ := natToDigits_head_digit n.natAbs
    unfold goParseInt
    rw [hdata, hcons]
    dsimp only
    rw [if_neg (isDigitChar_ne c hdig '+' (by decide)),
      if_neg (isDigitChar_ne c hdig '-' (by decide))]
    rw [← hcons]
    rw [goParseIntCore_natToDigits bitSize false n.natAbs (by rw [if_neg (by decide)]; omega)]
    rw [if_neg (by decide)]
    have hv : (n.natAbs : Int) = n := by omega
    rw [hv]

theorem goDateSubmatch_encode (l : List Char) (h : ticksStringSpec l = true) :
    goDateSubmatch (String.mk (datePrefix ++ l ++ dateSuffix)) = some l := by
  unfold goDateSubmatch
  have hdata : (String.mk (datePrefix ++ l ++ dateSuffix)).data =
      datePrefix ++ (l ++ dateSuffix) := by simp
  rw [hdata]
  dsimp only
  have htake : (datePrefix ++ (l ++ dateSuffix)).take 8 = datePrefix := by
    rw [show (8 : Nat) = datePrefix.length from rfl, List.take_left]
  have hdrop : (datePrefix ++ (l ++ dateSuffix)).drop 8 = l ++ dateSuffix := by
    rw [show (8 : Nat) = datePrefix.length from rfl, List.drop_left]
  rw [htake, if_pos rfl, hdrop]
  have hlen : (l ++ dateSuffix).length = l.length + 4 := by simp [dateSuffix]
  rw [if_neg (by omega)]
  have hsub : (l ++ dateSuffix).length - 4 = l.length := by omega
  rw [hlen]
  have htake2 : (l ++ dateSuffix).take (l.length + 4 - 4) = l := by
    rw [show l.length + 4 - 4 = l.length from by omega, List.take_left]
  have hdrop2 : (l ++ dateSuffix).drop (l.length + 4 - 4) = dateSuffix := by
    rw [show l.length + 4 - 4 = l.length from by omega, List.drop_left]
  rw [htake2, hdrop2, if_pos ⟨rfl, h⟩]

theorem ticksStringSpec_goItoa (m : Int) : ticksStringSpec (goItoa m).data = true := by
  obtain ⟨hall, hne, -⟩ := natToDigitsCore_spec (m.natAbs + 1) m.natAbs (by omega)
  by_cases hneg : m < 0
  · have hdata : (goItoa m).data = '-' :: natToDigits m.natAbs := by simp [goItoa, hneg]
    rw [hdata]
    unfold ticksStringSpec
    dsimp only
    rw [if_pos rfl]
    unfold natToDigits
    simp [List.isEmpty_iff, hne, hall]
  · have hdata : (goItoa m).data = natToDigits m.natAbs := by simp [goItoa, hneg]
    obtain ⟨c, cs, hcons, hdig⟩ := natToDigits_head_digit m.natAbs
    rw [hdata, hcons]
    unfold ticksStringSpec
    dsimp only
    rw [if_neg (isDigitChar_ne c hdig '-' (by decide))]
    rw [← hcons]
    unfold natToDigits at *
    exact hall

theorem goDateSubmatch_none_of_head (s : String)
    (h : ∀ c, s.data.head? = some c → c ≠ '"') : goDateSubmatch s = none := by
  unfold goDateSubmatch
  rw [if_neg]
  intro heq
  cases hd : s.data with
  | nil => rw [hd] at heq; exact absurd heq (by decide)
  | cons c cs =>
      rw [hd] at heq
      simp only [List.take, datePrefix, List.cons.injEq] at heq
      exact h c (by rw [hd]; rfl) heq.1

theorem goUnquote_none_of_head (s : String)
    (h : ∀ c, s.data.head? = some c → c ≠ '"' ∧ c ≠ '\x27' ∧ c ≠ '\x60') :
    goUnquote s = none := by
  unfold goUnquote
  cases hd : s.data with
  | nil => rfl
  | cons c cs =>
      obtain ⟨h1, h2, h3⟩ := h c (by rw [hd]; rfl)
      cases cs with
      | nil => rfl
      | cons c2 cs2 =>
          dsimp only
          split
          · rfl
          · first
              | rfl
              | rw [if_neg h3, if_neg h1, if_neg h2]
              | (rw [if_neg h3, if_neg h1, if_neg h2]; rfl)

theorem hexVal_hexDigitChar (m : Nat) (h : m < 16) : hexVal (hexDigitChar m) = some m := by
  interval_cases m <;> decide

theorem readHexDigits_length :
    ∀ (k acc : Nat) (t : List Char) (v : Nat) (t2 : List Char),
      readHexDigits k acc t = some (v, t2) → t2.length ≤ t.length := by
  intro k
  induction k with
  | zero =>
      intro acc t v t2 h
      simp only [readHexDigits, Option.some.injEq, Prod.mk.injEq] at h
      exact h.2 ▸ le_rfl
  | succ k ih =>
      intro acc t v t2 h
      cases t with
      | nil => exact Option.noConfusion h
      | cons c rest =>
          simp only [readHexDigits] at h
          cases hv : hexVal c with
          | none => rw [hv] at h; exact Option.noConfusion h
          | some d =>
              rw [hv] at h
              have := ih (16 * acc + d) rest v t2 h
              simp only [List.length_cons]
              omega

theorem readOctDigits_length :
    ∀ (k acc : Nat) (t : List Char) (v : Nat) (t2 : List Char),
      readOctDigits k acc t = some (v, t2) → t2.length ≤ t.length := by
  intro k
  induction k with
  | zero =>
      intro acc t v t2 h
      simp only [readOctDigits, Option.some.injEq, Prod.mk.injEq] at h
      exact h.2 ▸ le_rfl
  | succ k ih =>
      intro acc t v t2 h
      cases t with
      | nil => exact Option.noConfusion h
      | cons c rest =>
          simp only [readOctDigits] at h
          cases hv : octVal c with
          | none => rw [hv] at h; exact Option.noConfusion h
          | some d =>
              rw [hv] at h
              have := ih (8 * acc + d) rest v t2 h
              simp only [List.length_cons]
              omega

theorem unquoteEscape_length (q e : Char) (t : List Char) (d : Char) (t2 : List Char)
    (h : unquoteEscape q e t = some (d, t2)) : t2.length ≤ t.length := by
  unfold unquoteEscape at h
  by_cases h1 : e = 'a'
  · rw [if_pos h1] at h
    simp only [Option.some.injEq, Prod.mk.injEq] at h
    obtain ⟨-, rfl⟩ := h; exact le_rfl
  rw [if_neg h1] at h
  by_cases h2 : e = 'b'
  · rw [if_pos h2] at h
    simp only [Option.some.injEq, Prod.mk.injEq] at h
    obtain ⟨-, rfl⟩ := h; exact le_rfl
  rw [if_neg h2] at h
  by_cases h3 : e = 'f'
  · rw [if_pos h3] at h
    simp only [Option.some.injEq, Prod.mk.injEq] at h
    obtain ⟨-, rfl⟩ := h; exact le_rfl
  rw [if_neg h3] at h
  by_cases h4 : e = 'n'
  · rw [if_pos h4] at h
    simp only [Option.some.injEq, Prod.mk.injEq] at h
    obtain ⟨-, rfl⟩ := h; exact le_rfl
  rw [if_neg h4] at h
  by_cases h5 : e = 'r'
  · rw [if_pos h5] at h
    simp only [Option.some.injEq, Prod.mk.injEq] at h
    obtain ⟨-, rfl⟩ := h; exact le_rfl
  rw [if_neg h5] at h
  by_cases h6 : e = 't'
  · rw [if_pos h6] at h
    simp only [Option.some.injEq, Prod.mk.injEq] at h
    obtain ⟨-, rfl⟩ := h; exact le_rfl
  rw [if_neg h6] at h
  by_cases h7 : e = 'v'
  · rw [if_pos h7] at h
    simp only [Option.some.injEq, Prod.mk.injEq] at h
    obtain ⟨-, rfl⟩ := h; exact le_rfl
  rw [if_neg h7] at h
  by_cases h8 : e = 'x'
  · rw [if_pos h8] at h
    cases hr : readHexDigits 2 0 t with
    | none => rw [hr] at h; exact Option.noConfusion h
    | some p =>
        obtain ⟨v, t3⟩ := p
        rw [hr] at h
        simp only [Option.some.injEq, Prod.mk.injEq] at h
        obtain ⟨-, rfl⟩ := h
        exact readHexDigits_length 2 0 t v t3 hr
  rw [if_neg h8] at h
  by_cases h9 : e = 'u'
  · rw [if_pos h9] at h
    cases hr : readHexDigits 4 0 t with
    | none => rw [hr] at h; exact Option.noConfusion h
    | some p =>
        obtain ⟨v, t3⟩ := p
        rw [hr] at h
        dsimp only at h
        cases hu : runeOfEscape v with
        | none => rw [hu] at h; exact Option.noConfusion h
        | some r =>
            rw [hu] at h
            simp only [Option.some.injEq, Prod.mk.injEq] at h
            obtain ⟨-, rfl⟩ := h
            exact readHexDigits_length 4 0 t v t3 hr
  rw [if_neg h9] at h
  by_cases h10 : e = 'U'
  · rw [if_pos h10] at h
    cases hr : readHexDigits 8 0 t with
    | none => rw [hr] at h; exact Option.noConfusion h
    | some p =>
        obtain ⟨v, t3⟩ := p
        rw [hr] at h
        dsimp only at h
        cases hu : runeOfEscape v with
        | none => rw [hu] at h; exact Option.noConfusion h
        | some r =>
            rw [hu] at h
            simp only [Option.some.injEq, Prod.mk.injEq] at h
            obtain ⟨-, rfl⟩ := h
            exact readHexDigits_length 8 0 t v t3 hr
  rw [if_neg h10] at h
  by_cases h11 : e = '\\'
  · rw [if_pos h11] at h
    simp only [Option.some.injEq, Prod.mk.injEq] at h
    obtain ⟨-, rfl⟩ := h; exact le_rfl
  rw [if_neg h11] at h
  by_cases h12 : e = '\x27'
  · rw [if_pos h12] at h
    by_cases hq : q = '\x27'
    · rw [if_pos hq] at h
      simp only [Option.some.injEq, Prod.mk.injEq] at h
      obtain ⟨-, rfl⟩ := h; exact le_rfl
    · rw [if_neg hq] at h; exact Option.noConfusion h
  rw [if_neg h12] at h
  by_cases h13 : e = '"'
  · rw [if_pos h13] at h
    by_cases hq : q = '"'
    · rw [if_pos hq] at h
      simp only [Option.some.injEq, Prod.mk.injEq] at h
      obtain ⟨-, rfl⟩ := h; exact le_rfl
    · rw [if_neg hq] at h; exact Option.noConfusion h
  rw [if_neg h13] at h
  cases ho : octVal e with
  | none => rw [ho] at h; exact Option.noConfusion h
  | some v1 =>
      rw [ho] at h
      dsimp only at h
      cases hr : readOctDigits 2 v1 t with
      | none => rw [hr] at h; exact Option.noConfusion h
      | some p =>
          obtain ⟨v, t3⟩ := p
          rw [hr] at h
          dsimp only at h
          by_cases hv : v > 255
          · rw [if_pos hv] at h; exact Option.noConfusion h
          · rw [if_neg hv] at h
            simp only [Option.some.injEq, Prod.mk.injEq] at h
            obtain ⟨-, rfl⟩ := h
            exact readOctDigits_length 2 v1 t v t3 hr

theorem goUnquoteLoopF_fuel_irrel (q : Char) :
    ∀ (fuel1 : Nat) (l : List Char) (fuel2 : Nat), l.length ≤ fuel1 → l.length ≤ fuel2 →
      goUnquoteLoopF q fuel1 l = goUnquoteLoopF q fuel2 l := by
  intro fuel1
  induction fuel1 with
  | zero =>
      intro l fuel2 h1 h2
      have hl : l = [] := by cases l <;> simp_all
      subst hl
      cases fuel2 <;> rfl
  | succ f1 ih =>
      intro l fuel2 h1 h2
      cases l with
      | nil => cases fuel2 <;> rfl
      | cons c rest =>
          cases fuel2 with
          | zero => simp at h2
          | succ f2 =>
              simp only [goUnquoteLoopF]
              by_cases hq : c = q
              · simp [hq]
              rw [if_neg hq, if_neg hq]
              by_cases hb : c = '\\'
              · rw [if_pos hb, if_pos hb]
                cases rest with
                | nil => rfl
                | cons e t =>
                    dsimp only
                    cases hesc : unquoteEscape q e t with
                    | none => simp only [hesc]
                    | some pair =>
                        obtain ⟨d, t2⟩ := pair
                        have hlen : t2.length ≤ t.length :=
                          unquoteEscape_length q e t d t2 hesc
                        simp only [hesc]
                        rw [ih t2 f2 (by simp at h1; omega) (by simp at h2; omega)]
              · rw [if_neg hb, if_neg hb]
                rw [ih rest f2 (by simp at h1; omega) (by simp at h2; omega)]

theorem goUnquoteLoopF_to_loop (q : Char) (fuel : Nat) (l : List Char)
    (h : l.length ≤ fuel) : goUnquoteLoopF q fuel l = goUnquoteLoop q l :=
  goUnquoteLoopF_fuel_irrel q fuel l l.length h le_rfl

theorem goUnquoteLoopF_step_escape (q e : Char) (t : List Char) (fuel : Nat) (d : Char)
    (t2 : List Char) (hesc : unquoteEscape q e t = some (d, t2)) (hbq : ('\\' : Char) ≠ q) :
    goUnquoteLoopF q (fuel + 1) ('\\' :: e :: t) = (goUnquoteLoopF q fuel t2).map (d :: ·) := by
  simp only [goUnquoteLoopF]
  rw [if_neg hbq]
  simp [hesc]

theorem goUnquoteLoopF_step_lit (q c : Char) (rest : List Char) (fuel : Nat)
    (hq : c ≠ q) (hb : c ≠ '\\') :
    goUnquoteLoopF q (fuel + 1) (c :: rest) = (goUnquoteLoopF q fuel rest).map (c :: ·) := by
  simp only [goUnquoteLoopF]
  rw [if_neg hq, if_neg hb]

theorem goUnquoteLoop_escChar (c : Char) (t : List Char) :
    goUnquoteLoop '"' (goQuoteEscapeChar c ++ t) = (goUnquoteLoop '"' t).map (c :: ·) := by
  have hbq : ('\\' : Char) ≠ '"' := by decide
  unfold goQuoteEscapeChar
  by_cases h1 : c = '"' ∨ c = '\\'
  · rw [if_pos h1]
    rcases h1 with h | h <;> subst h
    · unfold goUnquoteLoop
      simp only [List.cons_append, List.nil_append, List.length_cons]
      rw [goUnquoteLoopF_step_escape _ _ _ _ _ _
          (show unquoteEscape '"' '"' t = some ('"', t) from rfl) hbq,
        goUnquoteLoopF_to_loop _ _ _ (by omega)]
      rfl
    · unfold goUnquoteLoop
      simp only [List.cons_append, List.nil_append, List.length_cons]
      rw [goUnquoteLoopF_step_escape _ _ _ _ _ _
          (show unquoteEscape '"' '\\' t = some ('\\', t) from rfl) hbq,
        goUnquoteLoopF_to_loop _ _ _ (by omega)]
      rfl
  · rw [if_neg h1]
    by_cases h2 : c = Char.ofNat 7
    · rw [if_pos h2]; subst h2
      unfold goUnquoteLoop
      simp only [List.cons_append, List.nil_append, List.length_cons]
      rw [goUnquoteLoopF_step_escape _ _ _ _ _ _
          (show unquoteEscape '"' 'a' t = some (Char.ofNat 7, t) from rfl) hbq,
        goUnquoteLoopF_to_loop _ _ _ (by omega)]
      rfl
    rw [if_neg h2]
    by_cases h3 : c = Char.ofNat 8
    · rw [if_pos h3]; subst h3
      unfold goUnquoteLoop
      simp only [List.cons_append, List.nil_append, List.length_cons]
      rw [goUnquoteLoopF_step_escape _ _ _ _ _ _
          (show unquoteEscape '"' 'b' t = some (Char.ofNat 8, t) from rfl) hbq,
        goUnquoteLoopF_to_loop _ _ _ (by omega)]
      rfl
    rw [if_neg h3]
    by_cases h4 : c = Char.ofNat 12
    · rw [if_pos h4]; subst h4
      unfold goUnquoteLoop
      simp only [List.cons_append, List.nil_append, List.length_cons]
      rw [goUnquoteLoopF_step_escape _ _ _ _ _ _
          (show unquoteEscape '"' 'f' t = some (Char.ofNat 12, t) from rfl) hbq,
        goUnquoteLoopF_to_loop _ _ _ (by omega)]
      rfl
    rw [if_neg h4]
    by_cases h5 : c = Char.ofNat 10
    · rw [if_pos h5]; subst h5
      unfold goUnquoteLoop
      simp only [List.cons_append, List.nil_append, List.length_cons]
      rw [goUnquoteLoopF_step_escape _ _ _ _ _ _
          (show unquoteEscape '"' 'n' t = some (Char.ofNat 10, t) from rfl) hbq,
        goUnquoteLoopF_to_loop _ _ _ (by omega)]
      rfl
    rw [if_neg h5]
    by_cases h6 : c = Char.ofNat 13
    · rw [if_pos h6]; subst h6
      unfold goUnquoteLoop
      simp only [List.cons_append, List.nil_append, List.length_cons]
      rw [goUnquoteLoopF_step_escape _ _ _ _ _ _
          (show unquoteEscape '"' 'r' t = some (Char.ofNat 13, t) from rfl) hbq,
        goUnquoteLoopF_to_loop _ _ _ (by omega)]
      rfl
    rw [if_neg h6]
    by_cases h7 : c = Char.ofNat 9
    · rw [if_pos h7]; subst h7
      unfold goUnquoteLoop
      simp only [List.cons_append, List.nil_append, List.length_cons]
      rw [goUnquoteLoopF_step_escape _ _ _ _ _ _
          (show unquoteEscape '"' 't' t = some (Char.ofNat 9, t) from rfl) hbq,
        goUnquoteLoopF_to_loop _ _ _ (by omega)]
      rfl
    rw [if_neg h7]
    by_cases h8 : c = Char.ofNat 11
    · rw [if_pos h8]; subst h8
      unfold goUnquoteLoop
      simp only [List.cons_append, List.nil_append, List.length_cons]
      rw [goUnquoteLoopF_step_escape _ _ _ _ _ _
          (show unquoteEscape '"' 'v' t = some (Char.ofNat 11, t) from rfl) hbq,
        goUnquoteLoopF_to_loop _ _ _ (by omega)]
      rfl
    rw [if_neg h8]
    by_cases h9 : c.toNat < 32 ∨ c.toNat = 127
    · rw [if_pos h9]
      have hdiv : c.toNat / 16 < 16 := by omega
      have hmod : c.toNat % 16 < 16 := by omega
      have hesc : unquoteEscape '"' 'x'
          (hexDigitChar (c.toNat / 16) :: hexDigitChar (c.toNat % 16) :: t) = some (c, t) := by
        simp [unquoteEscape, readHexDigits, hexVal_hexDigitChar _ hdiv,
          hexVal_hexDigitChar _ hmod, Nat.div_add_mod, Char.ofNat_toNat]
      unfold goUnquoteLoop
      simp only [List.cons_append, List.nil_append, List.length_cons]
      rw [goUnquoteLoopF_step_escape _ _ _ _ _ _ hesc hbq,
        goUnquoteLoopF_to_loop _ _ _ (by omega)]
      rfl
    · rw [if_neg h9]
      have hq : c ≠ '"' := fun h => h1 (Or.inl h)
      have hb : c ≠ '\\' := fun h => h1 (Or.inr h)
      unfold goUnquoteLoop
      simp only [List.cons_append, List.nil_append, List.length_cons]
      rw [goUnquoteLoopF_step_lit _ _ _ _ hq hb,
        goUnquoteLoopF_to_loop _ _ _ (by omega)]


theorem hexDigitChar_ne_newline (m : Nat) (h : m < 16) : hexDigitChar m ≠ '\n' := by
  interval_cases m <;> decide

theorem goQuoteEscapeChar_no_newline (c : Char) : '\n' ∉ goQuoteEscapeChar c := by
  unfold goQuoteEscapeChar
  by_cases h1 : c = '"' ∨ c = '\\'
  · rw [if_pos h1]; rcases h1 with h | h <;> subst h <;> decide
  rw [if_neg h1]
  by_cases h2 : c = Char.ofNat 7
  · rw [if_pos h2]; decide
  rw [if_neg h2]
  by_cases h3 : c = Char.ofNat 8
  · rw [if_pos h3]; decide
  rw [if_neg h3]
  by_cases h4 : c = Char.ofNat 12
  · rw [if_pos h4]; decide
  rw [if_neg h4]
  by_cases h5 : c = Char.ofNat 10
  · rw [if_pos h5]; decide
  rw [if_neg h5]
  by_cases h6 : c = Char.ofNat 13
  · rw [if_pos h6]; decide
  rw [if_neg h6]
  by_cases h7 : c = Char.ofNat 9
  · rw [if_pos h7]; decide
  rw [if_neg h7]
  by_cases h8 : c = Char.ofNat 11
  · rw [if_pos h8]; decide
  rw [if_neg h8]
  by_cases h9 : c.toNat < 32 ∨ c.toNat = 127
  · rw [if_pos h9]
    have hdiv : c.toNat / 16 < 16 := by omega
    have hmod : c.toNat % 16 < 16 := by omega
    intro hmem
    simp only [List.mem_cons, List.not_mem_nil, or_false] at hmem
    rcases hmem with h | h | h | h
    · exact absurd h (by decide)
    · exact absurd h (by decide)
    · exact hexDigitChar_ne_newline _ hdiv h.symm
    · exact hexDigitChar_ne_newline _ hmod h.symm
  · rw [if_neg h9]
    intro hmem
    rw [List.mem_singleton] at hmem
    exact h5 (by rw [← hmem])

theorem goQuote_flatten_no_newline (l : List Char) :
    '\n' ∉ (l.map goQuoteEscapeChar).flatten := by
  intro hmem
  rw [List.mem_flatten] at hmem
  obtain ⟨blk, hblk, hc⟩ := hmem
  rw [List.mem_map] at hblk
  obtain ⟨c, -, rfl⟩ := hblk
  exact goQuoteEscapeChar_no_newline c hc

theorem goUnquoteLoop_flatten (l : List Char) :
    goUnquoteLoop '"' ((l.map goQuoteEscapeChar).flatten) = some l := by
  induction l with
  | nil => rfl
  | cons c cs ih =>
      rw [List.map_cons, List.flatten_cons, goUnquoteLoop_escChar, ih]
      rfl

theorem goUnquote_goQuote (s : String) : goUnquote (goQuote s) = some s := by
  obtain ⟨l⟩ := s
  have hdata : (goQuote (String.mk l)).data
      = '"' :: ((l.map goQuoteEscapeChar).flatten ++ ['"']) := rfl
  obtain ⟨y, ys, hys⟩ : ∃ y ys,
      (l.map goQuoteEscapeChar).flatten ++ ['"'] = y :: ys := by
    cases (l.map goQuoteEscapeChar).flatten with
    | nil => exact ⟨'"', [], rfl⟩
    | cons a as => exact ⟨a, as ++ ['"'], rfl⟩
  have hlast : ('"' :: (y :: ys)).getLast? = some '"' := by
    rw [← hys,
      show '"' :: ((l.map goQuoteEscapeChar).flatten ++ ['"'])
        = ('"' :: (l.map goQuoteEscapeChar).flatten) ++ ['"'] from by simp,
      List.getLast?_concat]
  have hinner : (y :: ys).dropLast = (l.map goQuoteEscapeChar).flatten := by
    have : y :: ys = (l.map goQuoteEscapeChar).flatten ++ ['"'] := hys.symm
    rw [this, List.dropLast_concat]
  unfold goUnquote
  rw [hdata, hys]
  dsimp only
  rw [if_neg (fun hne => hne hlast)]
  rw [if_neg (by decide), if_pos rfl, hinner]
  rw [if_neg (by simpa using goQuote_flatten_no_newline l)]
  rw [goUnquoteLoop_flatten]
  rfl

theorem goQuote_take7_ne (l : List Char) :
    ¬ ((l.map goQuoteEscapeChar).flatten ++ ['"']).take 7
        = ['\\', '/', 'D', 'a', 't', 'e', '('] := by
  cases l with
  | nil => decide
  | cons c cs =>
      rw [List.map_cons, List.flatten_cons, List.append_assoc]
      generalize (cs.map goQuoteEscapeChar).flatten ++ ['"'] = r
      unfold goQuoteEscapeChar
      by_cases h1 : c = '"' ∨ c = '\\'
      · rw [if_pos h1]
        rcases h1 with h | h <;> subst h <;>
          (intro hEq
           rw [show (['\\', _] ++ r).take 7 = '\\' :: _ :: r.take 5 from rfl] at hEq
           simp only [List.cons.injEq] at hEq
           exact absurd hEq.2.1 (by decide))
      rw [if_neg h1]
      by_cases h2 : c = Char.ofNat 7
      · rw [if_pos h2]
        intro hEq
        rw [show (['\\', 'a'] ++ r).take 7 = '\\' :: 'a' :: r.take 5 from rfl] at hEq
        simp only [List.cons.injEq] at hEq
        exact absurd hEq.2.1 (by decide)
      rw [if_neg h2]
      by_cases h3 : c = Char.ofNat 8
      · rw [if_pos h3]
        intro hEq
        rw [show (['\\', 'b'] ++ r).take 7 = '\\' :: 'b' :: r.take 5 from rfl] at hEq
        simp only [List.cons.injEq] at hEq
        exact absurd hEq.2.1 (by decide)
      rw [if_neg h3]
      by_cases h4 : c = Char.ofNat 12
      · rw [if_pos h4]
        intro hEq
        rw [show (['\\', 'f'] ++ r).take 7 = '\\' :: 'f' :: r.take 5 from rfl] at hEq
        simp only [List.cons.injEq] at hEq
        exact absurd hEq.2.1 (by decide)
      rw [if_neg h4]
      by_cases h5 : c = Char.ofNat 10
      · rw [if_pos h5]
        intro hEq
        rw [show (['\\', 'n'] ++ r).take 7 = '\\' :: 'n' :: r.take 5 from rfl] at hEq
        simp only [List.cons.injEq] at hEq
        exact absurd hEq.2.1 (by decide)
      rw [if_neg h5]
      by_cases h6 : c = Char.ofNat 13
      · rw [if_pos h6]
        intro hEq
        rw [show (['\\', 'r'] ++ r).take 7 = '\\' :: 'r' :: r.take 5 from rfl] at hEq
        simp only [List.cons.injEq] at hEq
        exact absurd hEq.2.1 (by decide)
      rw [if_neg h6]
      by_cases h7 : c = Char.ofNat 9
      · rw [if_pos h7]
        intro hEq
        rw [show (['\\', 't'] ++ r).take 7 = '\\' :: 't' :: r.take 5 from rfl] at hEq
        simp only [List.cons.injEq] at hEq
        exact absurd hEq.2.1 (by decide)
      rw [if_neg h7]
      by_cases h8 : c = Char.ofNat 11
      · rw [if_pos h8]
        intro hEq
        rw [show (['\\', 'v'] ++ r).take 7 = '\\' :: 'v' :: r.take 5 from rfl] at hEq
        simp only [List.cons.injEq] at hEq
        exact absurd hEq.2.1 (by decide)
      rw [if_neg h8]
      by_cases h9 : c.toNat < 32 ∨ c.toNat = 127
      · rw [if_pos h9]
        intro hEq
        rw [show (['\\', 'x', hexDigitChar (c.toNat / 16), hexDigitChar (c.toNat % 16)]
            ++ r).take 7
            = '\\' :: 'x' :: hexDigitChar (c.toNat / 16) :: hexDigitChar (c.toNat % 16)
              :: r.take 3 from rfl] at hEq
        simp only [List.cons.injEq] at hEq
        exact absurd hEq.2.1 (by decide)
      · rw [if_neg h9]
        intro hEq
        rw [show ([c] ++ r).take 7 = c :: r.take 6 from rfl] at hEq
        simp only [List.cons.injEq] at hEq
        exact h1 (Or.inr hEq.1)

theorem goDateSubmatch_goQuote (s : String) : goDateSubmatch (goQuote s) = none := by
  obtain ⟨l⟩ := s
  have hne : ¬ ((goQuote (String.mk l)).data.take 8 = datePrefix) := by
    intro hEq
    rw [show (goQuote (String.mk l)).data.take 8
        = '"' :: ((l.map goQuoteEscapeChar).flatten ++ ['"']).take 7 from rfl] at hEq
    rw [show datePrefix = '"' :: ['\\', '/', 'D', 'a', 't', 'e', '('] from rfl] at hEq
    simp only [List.cons.injEq] at hEq
    exact goQuote_take7_ne l hEq.2
  unfold goDateSubmatch
  dsimp only
  rw [if_neg hne]

theorem goItoa_head (n : Int) (c : Char) (hc : (goItoa n).data.head? = some c) :
    c = '-' ∨ isDigitChar c = true := by
  by_cases hneg : n < 0
  · have hdata : (goItoa n).data = '-' :: natToDigits n.natAbs := by simp [goItoa, hneg]
    rw [hdata] at hc
    simp only [List.head?_cons, Option.some.injEq] at hc
    exact Or.inl hc.symm
  · have hdata : (goItoa n).data = natToDigits n.natAbs := by simp [goItoa, hneg]
    obtain ⟨d, ds, hcons, hdig⟩ := natToDigits_head_digit n.natAbs
    rw [hdata, hcons] at hc
    simp only [List.head?_cons, Option.some.injEq] at hc
    subst hc
    exact Or.inr hdig

theorem goUnquote_goItoa (n : Int) : goUnquote (goItoa n) = none := by
  apply goUnquote_none_of_head
  intro c hc
  rcases goItoa_head n c hc with h | h
  · subst h
    exact ⟨by decide, by decide, by decide⟩
  · exact ⟨isDigitChar_ne c h '"' (by decide),
      isDigitChar_ne c h '\x27' (by decide),
      isDigitChar_ne c h '\x60' (by decide)⟩

theorem goDateSubmatch_goItoa (n : Int) : goDateSubmatch (goItoa n) = none := by
  apply goDateSubmatch_none_of_head
  intro c hc
  rcases goItoa_head n c hc with h | h
  · subst h; decide
  · exact isDigitChar_ne c h '"' (by decide)

theorem automationVariableClassify_goQuote (s : String) :
    automationVariableClassify (goQuote s)
      = (some (.strValue s), "azurerm_automation_variable_string") := by
  unfold automationVariableClassify
  rw [goDateSubmatch_goQuote]
  dsimp only
  rw [goUnquote_goQuote]

theorem automationVariableClassify_goItoa (n : Int)
    (h1 : int32Min ≤ n) (h2 : n ≤ int32Max) :
    automationVariableClassify (goItoa n)
      = (some (.intValue n), "azurerm_automation_variable_int") := by
  have hp : goParseInt 32 (goItoa n) = some n := goParseInt_goItoa 32 n h1 h2
  unfold automationVariableClassify
  rw [goDateSubmatch_goItoa]
  dsimp only
  rw [goUnquote_goItoa]
  dsimp only
  rw [hp]

/-- C8: ParseAzureAutomationVariableValue accepts a nil input exactly for the
null variable resource, returning no value, and errors for every other
expected resource name; on a non-nil input it errors exactly when the
resource string inferred from the input by the classification chain differs
from the expected resource name. -/
theorem parse_error_characterisation :
    (ParseAzureAutomationVariableValue "azurerm_automation_variable_null" none
        = .ok none)
    ∧ (∀ resource : String, resource ≠ "azurerm_automation_variable_null" →
        exceptIsError (ParseAzureAutomationVariableValue resource none) = true)
    ∧ (∀ resource inputVal : String,
        exceptIsError (ParseAzureAutomationVariableValue resource (some inputVal)) = true
          ↔ automationVariableActualResource inputVal ≠ resource) := by
  refine ⟨rfl, ?_, ?_⟩
  · intro r hr
    unfold ParseAzureAutomationVariableValue
    rw [if_pos hr]
    rfl
  · intro r iv
    unfold ParseAzureAutomationVariableValue
    dsimp only
    by_cases h : (automationVariableClassify iv).2 ≠ r
    · rw [if_pos h]
      simpa [exceptIsError, automationVariableActualResource] using h
    · rw [if_neg h]
      simp only [exceptIsError, automationVariableActualResource]
      constructor
      · intro hfalse; exact Bool.noConfusion hfalse
      · intro hne; exact absurd hne h

/-- Witness for C8: a nil input with the int resource name yields an error. -/
theorem parse_error_characterisation_witness :
    exceptIsError (ParseAzureAutomationVariableValue
      "azurerm_automation_variable_int" none) = true :=
  parse_error_characterisation.2.1 "azurerm_automation_variable_int" (by decide)

/-- C3 counterexample: the int value 2147483648 is accepted by the Create
operation (Go ints are 64-bit and the int variable schema validates with
IsInt), Create encodes it with Itoa as the decimal string, yet re-parsing
with ParseAzureAutomationVariableValue errors, because the parse calls
ParseInt with a 32-bit size that rejects the value.  The round trip of the
claim therefore fails for this int value. -/
theorem automationVariable_int_roundtrip_counterexample :
    exceptIsError (ParseAzureAutomationVariableValue "azurerm_automation_variable_int"
      (some (resourceAutomationVariableCreateValue (.intCfg 2147483648)))) = true := by
  decide

/-- C3 amended: the Create-then-Parse round trip holds for every string
value, every bool value, every int value within the int32 range, and every
datetime instant whose nanosecond count lies in the int64 range, the
datetime reproduced at millisecond precision; outside the int32 range the
int round trip fails, as the counterexample shows. -/
theorem automationVariable_roundtrip_amended :
    (∀ s : String,
        ParseAzureAutomationVariableValue "azurerm_automation_variable_string"
          (some (resourceAutomationVariableCreateValue (.strCfg s)))
          = .ok (some (.strValue s)))
    ∧ (∀ b : Bool,
        ParseAzureAutomationVariableValue "azurerm_automation_variable_bool"
          (some (resourceAutomationVariableCreateValue (.boolCfg b)))
          = .ok (some (.boolValue b)))
    ∧ (∀ n : Int, int32Min ≤ n → n ≤ int32Max →
        ParseAzureAutomationVariableValue "azurerm_automation_variable_int"
          (some (resourceAutomationVariableCreateValue (.intCfg n)))
          = .ok (some (.intValue n)))
    ∧ (∀ ns : Int, int64Min ≤ ns → ns ≤ int64Max →
        ParseAzureAutomationVariableValue "azurerm_automation_variable_datetime"
          (some (resourceAutomationVariableCreateValue (.dtValue ns)))
          = .ok (some (.timeValue (goDiv ns 1000000 * 1000000)))) := by
  refine ⟨?_, ?_, ?_, ?_⟩
  · intro s
    unfold ParseAzureAutomationVariableValue
    dsimp only
    rw [show resourceAutomationVariableCreateValue (AutomationConfigValue.strCfg s)
        = goQuote s from rfl]
    rw [automationVariableClassify_goQuote]
    rw [if_neg (fun h => h rfl)]
  · intro b
    cases b <;> decide
  · intro n h1 h2
    unfold ParseAzureAutomationVariableValue
    dsimp only
    rw [show resourceAutomationVariableCreateValue (AutomationConfigValue.intCfg n)
        = goItoa n from rfl]
    rw [automationVariableClassify_goItoa n h1 h2]
    rw [if_neg (fun h => h rfl)]
  · intro ns hlo hhi
    have habs : (Int.tdiv ns 1000000).natAbs = ns.natAbs / 1000000 :=
      Int.natAbs_tdiv ns 1000000
    have hlo' : -(2 ^ (64 - 1)) ≤ goDiv ns 1000000 := by
      unfold int64Min at hlo; unfold int64Max at hhi; unfold goDiv; omega
    have hhi' : goDiv ns 1000000 ≤ 2 ^ (64 - 1) - 1 := by
      unfold int64Min at hlo; unfold int64Max at hhi; unfold goDiv; omega
    have hp : goParseInt 64 (goItoa (goDiv ns 1000000)) = some (goDiv ns 1000000) :=
      goParseInt_goItoa 64 _ hlo' hhi'
    have henc : goDateSubmatch (resourceAutomationVariableCreateValue (.dtValue ns))
        = some (goItoa (goDiv ns 1000000)).data := by
      rw [show resourceAutomationVariableCreateValue (AutomationConfigValue.dtValue ns)
          = String.mk (datePrefix ++ (goItoa (goDiv ns 1000000)).data ++ dateSuffix)
          from rfl]
      exact goDateSubmatch_encode _ (ticksStringSpec_goItoa _)
    have harith : goDiv (goDiv ns 1000000) 1000 * 1000000000
        + goMod (goDiv ns 1000000) 1000 * 1000000 = goDiv ns 1000000 * 1000000 := by
      unfold goDiv goMod
      have h := Int.tdiv_add_tmod (Int.tdiv ns 1000000) 1000
      linarith
    have hclass : automationVariableClassify
          (resourceAutomationVariableCreateValue (.dtValue ns))
        = (some (.timeValue (goDiv ns 1000000 * 1000000)),
           "azurerm_automation_variable_datetime") := by
      unfold automationVariableClassify
      rw [henc]
      dsimp only
      rw [show String.mk (goItoa (goDiv ns 1000000)).data = goItoa (goDiv ns 1000000)
          from rfl, hp]
      dsimp only
      rw [harith]
    unfold ParseAzureAutomationVariableValue
    dsimp only
    rw [hclass]
    rw [if_neg (fun h => h rfl)]

/-- Witness for C3: concrete in-range int and datetime values round-trip. -/
theorem automationVariable_roundtrip_witness :
    (int32Min ≤ (5 : Int) ∧ (5 : Int) ≤ int32Max
      ∧ ParseAzureAutomationVariableValue "azurerm_automation_variable_int"
          (some (resourceAutomationVariableCreateValue (.intCfg 5)))
          = .ok (some (.intValue 5)))
    ∧ (int64Min ≤ (1500000000 : Int) ∧ (1500000000 : Int) ≤ int64Max
      ∧ ParseAzureAutomationVariableValue "azurerm_automation_variable_datetime"
          (some (resourceAutomationVariableCreateValue (.dtValue 1500000000)))
          = .ok (some (.timeValue (goDiv 1500000000 1000000 * 1000000)))) :=
  ⟨⟨by decide, by decide,
    automationVariable_roundtrip_amended.2.2.1 5 (by decide) (by decide)⟩,
   ⟨by decide, by decide,
    automationVariable_roundtrip_amended.2.2.2 1500000000 (by decide) (by decide)⟩⟩
